import Mathlib

/-!
# Galaxy Traits simulation core: a shallow embedding

This file embeds the simulation core of the Galaxy Traits visualization
(an Angular/Three.js force-directed "galaxy" of trait-vector nodes) in
Lean 4 and settles a list of claims about it.

Modelling conventions, used throughout:

* Trait arithmetic (compatibility / similarity metrics, attribute edits,
  the integer hash) is exact rational arithmetic, so it is modelled over
  `ℚ` with computable definitions.
* Spatial arithmetic (positions, velocities, forces) uses square roots and
  trigonometric functions, so it is modelled over `ℝ`; those definitions
  are `noncomputable` and theorems about them are settled by `simp` /
  `norm_num` rather than by evaluation.
* JavaScript produces `NaN` from `0/0`.  In the metric functions the only
  `NaN` source is an empty common attribute prefix (`len = 0`), and there
  it poisons the whole result; this is modelled by returning `Option ℚ`
  with `none` playing the role of `NaN`.  Where a component consumes the
  metric inside larger spatial code, a totalized `ℚ` version is used and
  the `len = 0` divergence is recorded in that definition's doc comment.
* JavaScript `Map` iteration follows insertion order, so the attribute
  grouping map is modelled as an association list built in insertion
  order.  The string key `attributes.join(',')` is modelled by the
  attribute list itself (the join is injective on numeric lists).
* Random draws (`Math.random()`) are passed in as explicit parameters.
-/

namespace GalaxyTraits

/-! ## MetricEngine (physics.service.ts / node.service.ts) -/

/-- `calculateCompatibility` from `physics.service.ts` (an identical copy
lives in `node.service.ts` and is modelled by this same definition).
`len = min(centralPrefs.length, nodeAttrs.length)`; `maxDiff = len * 100`;
`sum` accumulates the absolute per-index differences over the first `len`
entries; the result is `Math.max(0, 1 - sum / maxDiff)`.  When `len = 0`
JavaScript evaluates `0 / 0 = NaN` and `Math.max(0, NaN) = NaN`; the `NaN`
result is modelled as `none`. -/
def calculateCompatibility (centralPrefs nodeAttrs : List ℚ) : Option ℚ :=
  let len := min centralPrefs.length nodeAttrs.length
  let maxDiff : ℚ := (len : ℚ) * 100
  let sum : ℚ :=
    (List.range len).foldl (fun s i => s + |centralPrefs.getD i 0 - nodeAttrs.getD i 0|) 0
  if maxDiff = 0 then none else some (max 0 (1 - sum / maxDiff))

/-- `calculateSimilarity` from `physics.service.ts`: textually the same
computation as `calculateCompatibility`, applied to two arbitrary nodes'
attribute vectors.  `none` models the `NaN` produced when `len = 0`. -/
def calculateSimilarity (attrs1 attrs2 : List ℚ) : Option ℚ :=
  let len := min attrs1.length attrs2.length
  let maxDiff : ℚ := (len : ℚ) * 100
  let sum : ℚ :=
    (List.range len).foldl (fun s i => s + |attrs1.getD i 0 - attrs2.getD i 0|) 0
  if maxDiff = 0 then none else some (max 0 (1 - sum / maxDiff))

/-- The compatibility formula exactly as the specification words it (used
to compare the code against the spec): let `L` be the shorter length, sum
the absolute per-index differences over the first `L` entries, and return
`max(0, 1 - sum/(L*100))`.  This is the spec-side definition for the
refinement claim; it is total because Lean's rational division by zero
yields zero. -/
def specCompatibility (prefs attrs : List ℚ) : ℚ :=
  let L := min prefs.length attrs.length
  let sum : ℚ := ((prefs.zip attrs).map fun p => |p.1 - p.2|).sum
  max 0 (1 - sum / ((L : ℚ) * 100))

/-! ## Data model (node.interface.ts) -/

/-- A 3D vector over the reals: the `{x, y, z}` position/velocity records
of the interfaces and `THREE.Vector3` in the components. -/
structure Vec3 where
  x : ℝ
  y : ℝ
  z : ℝ

/-- The cached `compatibility?: number` field of a node: absent
(`undef`), holding JavaScript `NaN`, or holding a numeric value. -/
inductive CompatVal where
  | undef : CompatVal
  | nan : CompatVal
  | val : ℚ → CompatVal
deriving DecidableEq

/-- Converts a metric result (where `none` models `NaN`) into a stored
`compatibility` field value. -/
def toCompatVal : Option ℚ → CompatVal
  | none => .nan
  | some q => .val q

/-- `Node` from `node.interface.ts`.  Trait values are rational (their
arithmetic is exact); spatial state is real. -/
structure Node where
  id : String
  name : String
  attributes : List ℚ
  attributeNames : List String
  position : Vec3
  velocity : Vec3
  radius : ℝ
  color : String
  isCentral : Bool
  compatibility : CompatVal

/-! ## NodeService (node.service.ts) -/

/-- The pool of default attribute names used by
`generateDefaultAttributeNames`; `numAttributes` of them are taken. -/
def defaultNames : List String :=
  ["Intelligence", "Creativity", "Empathy", "Leadership", "Technical",
   "Communication", "Problem Solving", "Innovation", "Collaboration", "Adaptability",
   "Analytical", "Strategic", "Emotional Intelligence", "Resilience", "Vision"]

/-- The `Math.random()` draws consumed for one outer node in
`generateNodes`: the attribute values (each `Math.floor(Math.random()*101)`)
and the raw draws used for the orbit radius, vertical position and display
radius. -/
structure OuterRand where
  attrs : List ℚ
  orbitRand : ℝ
  yRand : ℝ
  radiusRand : ℝ

/-- The central node built by `generateNodes`: pinned at the origin with
`isCentral = true` and `compatibility = 1`. -/
def centralNodeOf (defaultAttributeNames : List String)
    (centralPreferences : List ℚ) : Node :=
  { id := "central", name := "Central Node",
    attributes := centralPreferences, attributeNames := defaultAttributeNames,
    position := ⟨0, 0, 0⟩, velocity := ⟨0, 0, 0⟩,
    radius := 2, color := "#C300FF", isCentral := true, compatibility := .val 1 }

/-- The loop body of `generateNodes` building outer node `i`: placed on an
orbit at angle `(i / numNodes) * π * 2`, with `isCentral = false` and no
cached compatibility. -/
noncomputable def outerNode (defaultAttributeNames : List String) (numNodes : ℕ)
    (p : ℕ × OuterRand) : Node :=
  let i := p.1
  let r := p.2
  let angle : ℝ := ((i : ℝ) / (numNodes : ℝ)) * Real.pi * 2
  let orbitRadius : ℝ := 20 + r.orbitRand * 30
  { id := "node-" ++ toString i, name := "Node " ++ toString (i + 1),
    attributes := r.attrs, attributeNames := defaultAttributeNames,
    position := ⟨Real.cos angle * orbitRadius, (r.yRand - 0.5) * 10,
      Real.sin angle * orbitRadius⟩,
    velocity := ⟨-Real.sin angle * 2, 0, Real.cos angle * 2⟩,
    radius := 0.6 + r.radiusRand * 0.4, color := "#FF3366",
    isCentral := false, compatibility := .undef }

/-- `generateNodes` from `node.service.ts`, with the random draws passed
in explicitly (`rands.length` plays `numNodes`).  The service also
publishes the list on its subjects and delays the returned observable;
only the produced node list is modelled. -/
noncomputable def generateNodes (numAttributes : ℕ) (centralPreferences : List ℚ)
    (rands : List OuterRand) : List Node :=
  centralNodeOf (defaultNames.take numAttributes) centralPreferences ::
    rands.enum.map (outerNode (defaultNames.take numAttributes) rands.length)

/-- `setCentralNode` from `node.service.ts`: when a node with the given id
exists, every node's `isCentral` flag is rewritten to `id === nodeId`;
otherwise the list is unchanged.  (The service also republishes the old
node object on `centralNodeSubject`; only the node list is modelled.)
Note that the new central node's cached `compatibility` is not touched. -/
def setCentralNode (nodes : List Node) (nodeId : String) : List Node :=
  match nodes.find? (fun n => n.id == nodeId) with
  | none => nodes
  | some _ => nodes.map fun n => { n with isCentral := n.id == nodeId }

/-- `updateAllCompatibilities` from `node.service.ts`: recompute and store
the compatibility of every non-central node against the given central
preferences; central nodes are returned unchanged. -/
def updateAllCompatibilities (nodes : List Node) (centralPrefs : List ℚ) : List Node :=
  nodes.map fun n =>
    if n.isCentral then n
    else { n with
      compatibility := toCompatVal (calculateCompatibility centralPrefs n.attributes) }

/-- `updateNodeAttributeValue` from `node.service.ts`: find the first node
with the given id and overwrite `attributes[attributeIndex]` with
`Math.max(0, Math.min(100, value))`.  Only in-range indices are modelled
(`List.set` ignores an out-of-range index, where a JavaScript array
assignment would grow the array); the inner `none` branch is unreachable
because `findIdx?` returns an in-range index. -/
def updateNodeAttributeValue (nodes : List Node) (nodeId : String)
    (attributeIndex : ℕ) (value : ℚ) : List Node :=
  match nodes.findIdx? (fun n => n.id == nodeId) with
  | none => nodes
  | some i =>
      match nodes[i]? with
      | none => nodes
      | some n =>
          nodes.set i
            { n with attributes := n.attributes.set attributeIndex (max 0 (min 100 value)) }

/-- The node-set invariant asserted by the spec: exactly one node carries
`isCentral = true`, and that node's cached compatibility is the number 1. -/
def centralInvariant (nodes : List Node) : Prop :=
  (nodes.filter (fun n => n.isCentral)).length = 1 ∧
    ∀ n ∈ nodes, n.isCentral = true → n.compatibility = .val 1

/-! ## Vector arithmetic (`THREE.Vector3` semantics) -/

/-- Componentwise vector addition (`Vector3.add`). -/
def vadd (a b : Vec3) : Vec3 := ⟨a.x + b.x, a.y + b.y, a.z + b.z⟩

/-- Componentwise vector subtraction (`Vector3.sub` / `subVectors`). -/
def vsub (a b : Vec3) : Vec3 := ⟨a.x - b.x, a.y - b.y, a.z - b.z⟩

/-- Scalar multiplication (`Vector3.multiplyScalar`). -/
def vscale (c : ℝ) (v : Vec3) : Vec3 := ⟨c * v.x, c * v.y, c * v.z⟩

/-- Componentwise negation. -/
def vneg (v : Vec3) : Vec3 := ⟨-v.x, -v.y, -v.z⟩

/-- Squared Euclidean length (`Vector3.lengthSq`). -/
def vlenSq (v : Vec3) : ℝ := v.x * v.x + v.y * v.y + v.z * v.z

/-- Euclidean length (`Vector3.length`). -/
noncomputable def vlen (v : Vec3) : ℝ := Real.sqrt (vlenSq v)

open Classical in
/-- `Vector3.normalize`: divides by `length || 1`, so the zero vector is
returned unchanged (no `NaN` is produced). -/
noncomputable def vnormalize (v : Vec3) : Vec3 :=
  vscale (1 / (if vlen v = 0 then 1 else vlen v)) v

/-! ## PhysicsService (physics.service.ts) -/

/-- `PhysicsConfig` from `node.interface.ts`. -/
structure PhysicsConfig where
  attractionK : ℝ
  repulsionK : ℝ
  damping : ℝ
  maxDistance : ℝ
  minDistance : ℝ

/-- The initial configuration held by `physicsConfigSubject`. -/
noncomputable def defaultPhysicsConfig : PhysicsConfig := ⟨100, 20, 0.98, 200, 0.1⟩

/-- `calculateAttractionForce` from `physics.service.ts`: compatibility of
the two nodes' attributes scales an inverse-square pull along the
direction from the outer node to the central node, with the distance
clamped below by `minDistance`, all scaled by `dt`.  A `NaN` compatibility
(empty attribute prefix, modelled `none`) poisons every component of the
result, modelled by returning `none`. -/
noncomputable def calculateAttractionForce (config : PhysicsConfig)
    (centralNode outerNode : Node) (dt : ℝ) : Option Vec3 :=
  (calculateCompatibility centralNode.attributes outerNode.attributes).map fun (compat : ℚ) =>
    let d := vsub centralNode.position outerNode.position
    let distance := max (vlen d) config.minDistance
    let distanceSquared := distance * distance
    let forceMagnitude := config.attractionK * (compat : ℝ) / distanceSquared
    ⟨d.x / distance * forceMagnitude * dt,
     d.y / distance * forceMagnitude * dt,
     d.z / distance * forceMagnitude * dt⟩

/-- `calculateRepulsionForce` from `physics.service.ts`: an inverse-square
push between two nodes weighted by `1 - similarity`, returned as the pair
`(force1, force2)` with `force1` the componentwise negation of `force2`.
As above, a `NaN` similarity is modelled by `none`. -/
noncomputable def calculateRepulsionForce (config : PhysicsConfig)
    (node1 node2 : Node) (dt : ℝ) : Option (Vec3 × Vec3) :=
  (calculateSimilarity node1.attributes node2.attributes).map fun (similarity : ℚ) =>
    let d := vsub node2.position node1.position
    let distance := max (vlen d) config.minDistance
    let distanceSquared := distance * distance
    let forceMagnitude := config.repulsionK * (1 - (similarity : ℝ)) / distanceSquared
    let force : Vec3 :=
      ⟨d.x / distance * forceMagnitude * dt,
       d.y / distance * forceMagnitude * dt,
       d.z / distance * forceMagnitude * dt⟩
    (vneg force, force)

/-- `applyDamping` from `physics.service.ts`. -/
def applyDamping (velocity : Vec3) (damping : ℝ) : Vec3 :=
  ⟨velocity.x * damping, velocity.y * damping, velocity.z * damping⟩

/-! ## Indexed iteration helper -/

/-- An indexed map, modelling a `for (let i ...)` loop that rewrites every
entry of an array from its index and old value; `k` is the index of the
first entry. -/
def idxMap (f : ℕ → α → β) : ℕ → List α → List β
  | _, [] => []
  | k, a :: as => f k a :: idxMap f (k + 1) as

/-! ## Galaxy component integrator (galaxy-traits-library.component.ts) -/

/-- The component's private `compatibility` metric — unlike the service
version it does not wrap the result in `Math.max(0, ·)`.  Totalized over
`ℚ`: at `len = 0` JavaScript yields `NaN` where this model yields `1`
(Lean's `0/0 = 0`); tick theorems instantiate it only on nonempty
attribute vectors, where the two agree. -/
def compatibilityLib (prefs attrs : List ℚ) : ℚ :=
  let len := min prefs.length attrs.length
  let maxDiff : ℚ := (len : ℚ) * 100
  let sum : ℚ :=
    (List.range len).foldl (fun s i => s + |prefs.getD i 0 - attrs.getD i 0|) 0
  1 - sum / maxDiff

/-- The component's private `similarity` metric: textually the same
computation applied to two nodes' attribute vectors (same totalization
caveat as `compatibilityLib`). -/
def similarityLib (a b : List ℚ) : ℚ :=
  let len := min a.length b.length
  let maxDiff : ℚ := (len : ℚ) * 100
  let sum : ℚ :=
    (List.range len).foldl (fun s i => s + |a.getD i 0 - b.getD i 0|) 0
  1 - sum / maxDiff

/-- The galaxy component's integrator state: central sphere position, node
sphere positions, per-sphere velocities, per-sphere attribute vectors
(`this.nodes[i].attributes`; the `Math.random()` fallback for a missing
entry is not modelled — the lists are taken index-aligned), and the index
of the currently dragged sphere (`dragging && dragged === nodeSpheres[i]`). -/
structure GalaxyState where
  centralPos : Vec3
  spheres : List Vec3
  velocities : List Vec3
  attrs : List (List ℚ)
  draggedIdx : Option ℕ

/-- The repulsion double loop of the galaxy `stepPhysics`: for every pair
`i < j` (in loop order), subtract `dt`-scaled repulsion from velocity `i`
and add it to velocity `j`. -/
noncomputable def repulsionPass (kRep dt : ℝ) (spheres : List Vec3)
    (attrs : List (List ℚ)) (velocities : List Vec3) : List Vec3 :=
  (List.range spheres.length).foldl (fun vs i =>
    (List.range spheres.length).foldl (fun vs' j =>
      if i < j then
        let sim := max 0 (similarityLib (attrs.getD i []) (attrs.getD j []))
        let d := vsub (spheres.getD j ⟨0, 0, 0⟩) (spheres.getD i ⟨0, 0, 0⟩)
        let distSq := max (vlenSq d) 1
        let f := vscale (kRep * (1 - sim) / distSq) (vnormalize d)
        let vs1 := vs'.set i (vadd (vs'.getD i ⟨0, 0, 0⟩) (vscale (-dt) f))
        vs1.set j (vadd (vs1.getD j ⟨0, 0, 0⟩) (vscale dt f))
      else vs') vs) velocities

/-- `stepPhysics` from `galaxy-traits-library.component.ts`: attraction
toward the central sphere accumulates into every sphere's velocity
(`Math.max(0, compatibility)` scaling, squared distance clamped below by
1); repulsion accumulates into both velocities of every pair; then every
sphere except the currently dragged one integrates its position and damps
its velocity.  The dragged sphere is skipped only in that last loop. -/
noncomputable def stepPhysicsGalaxy (prefs : List ℚ) (kAtt kRep damp dt : ℝ)
    (s : GalaxyState) : GalaxyState :=
  let vs1 := idxMap (fun i v =>
    let compat := max 0 (compatibilityLib prefs (s.attrs.getD i []))
    let d := vsub s.centralPos (s.spheres.getD i ⟨0, 0, 0⟩)
    let distSq := max (vlenSq d) 1
    let force := vscale (kAtt * compat / distSq) (vnormalize d)
    vadd v (vscale dt force)) 0 s.velocities
  let vs2 := repulsionPass kRep dt s.spheres s.attrs vs1
  let spheres1 := idxMap (fun i p =>
    if s.draggedIdx = some i then p
    else vadd p (vscale dt (vs2.getD i ⟨0, 0, 0⟩))) 0 s.spheres
  let vs3 := idxMap (fun i v =>
    if s.draggedIdx = some i then v else vscale damp v) 0 vs2
  { s with spheres := spheres1, velocities := vs3 }

/-! ## Spline view (part_000 variant) state and drag handling -/

/-- A rendered mesh: the `nodeId` it carries and its live position. -/
structure Mesh where
  nodeId : String
  position : Vec3

/-- The spline-view (`part_000` variant) component state relevant to the
simulation: service node data, the service central node, live meshes,
per-mesh velocities, the equilibrium cache (`none` entries model the holes
of the sparse JavaScript array), the dragged mesh index, and the
`isCalculatingEquilibrium` flag. -/
structure P0State where
  nodes : List Node
  centralNode : Option Node
  meshes : List Mesh
  velocities : List Vec3
  equilibriumPositions : List (Option Vec3)
  draggedIdx : Option ℕ
  isCalculatingEquilibrium : Bool

/-! ## Totalized service metrics

The spline components call the service metrics inside larger spatial
computations.  These totalized `ℚ` versions agree with the `Option`
versions whenever the common attribute prefix is nonempty (see
`calculateCompatibility_eq_total`); at length 0 JavaScript produces `NaN`
(not modelled here — Lean's `0/0 = 0` makes the totalized value `1`). -/

/-- Totalized `calculateCompatibility` (service formula with the
`Math.max(0, ·)` wrap). -/
def compatTotal (centralPrefs nodeAttrs : List ℚ) : ℚ :=
  let len := min centralPrefs.length nodeAttrs.length
  let maxDiff : ℚ := (len : ℚ) * 100
  let sum : ℚ :=
    (List.range len).foldl (fun s i => s + |centralPrefs.getD i 0 - nodeAttrs.getD i 0|) 0
  max 0 (1 - sum / maxDiff)

/-- Totalized `calculateSimilarity` (service formula with the
`Math.max(0, ·)` wrap). -/
def simTotal (attrs1 attrs2 : List ℚ) : ℚ :=
  let len := min attrs1.length attrs2.length
  let maxDiff : ℚ := (len : ℚ) * 100
  let sum : ℚ :=
    (List.range len).foldl (fun s i => s + |attrs1.getD i 0 - attrs2.getD i 0|) 0
  max 0 (1 - sum / maxDiff)

/-- `calculateAttractionForce` with the totalized metric (exactly the
service computation whenever the compatibility is a number). -/
noncomputable def attractionForceTotal (config : PhysicsConfig)
    (centralNode outerNode : Node) (dt : ℝ) : Vec3 :=
  let compat := compatTotal centralNode.attributes outerNode.attributes
  let d := vsub centralNode.position outerNode.position
  let distance := max (vlen d) config.minDistance
  let distanceSquared := distance * distance
  let forceMagnitude := config.attractionK * (compat : ℝ) / distanceSquared
  ⟨d.x / distance * forceMagnitude * dt,
   d.y / distance * forceMagnitude * dt,
   d.z / distance * forceMagnitude * dt⟩

/-- `calculateRepulsionForce` with the totalized metric: the
`(force1, force2)` pair. -/
noncomputable def repulsionPairTotal (config : PhysicsConfig)
    (node1 node2 : Node) (dt : ℝ) : Vec3 × Vec3 :=
  let similarity := simTotal node1.attributes node2.attributes
  let d := vsub node2.position node1.position
  let distance := max (vlen d) config.minDistance
  let distanceSquared := distance * distance
  let forceMagnitude := config.repulsionK * (1 - (similarity : ℝ)) / distanceSquared
  let force : Vec3 :=
    ⟨d.x / distance * forceMagnitude * dt,
     d.y / distance * forceMagnitude * dt,
     d.z / distance * forceMagnitude * dt⟩
  (vneg force, force)

/-! ## EquilibriumSolver (part_000 `runEquilibriumCalculation`) -/

/-- One iteration of the `part_000` equilibrium solve (`for step` body).
For every mesh whose service node exists and is not central: zero its
velocity, add the attraction from the service central node, add `force1`
of the repulsion against every other non-central service node within 50
units (squared distance computed from the *service* positions, which stay
frozen during the solve), and damp; then every such mesh's **live**
position is advanced by `dt` times its velocity; finally every central
mesh is pinned to the origin.  Cancellation and the wall-clock timeout are
cooperative no-ops in this single-threaded model. -/
noncomputable def equilibriumStep (config : PhysicsConfig) (damping dt : ℝ)
    (nodes : List Node) (centralNode : Option Node)
    (meshes : List Mesh) (velocities : List Vec3) : List Mesh × List Vec3 :=
  let velocities1 := idxMap (fun i v =>
    match nodes.find? (fun n => n.id == (meshes.getD i ⟨"", ⟨0, 0, 0⟩⟩).nodeId) with
    | none => v
    | some node =>
      if node.isCentral then v
      else
        match centralNode with
        | none => ⟨0, 0, 0⟩
        | some c =>
          let v0 := attractionForceTotal config c node dt
          let v1 := (List.range meshes.length).foldl (fun acc j =>
            if j = i then acc
            else
              match nodes.find? (fun n => n.id == (meshes.getD j ⟨"", ⟨0, 0, 0⟩⟩).nodeId) with
              | none => acc
              | some other =>
                if other.isCentral then acc
                else
                  let distanceSquared := vlenSq (vsub other.position node.position)
                  if distanceSquared > 50 * 50 then acc
                  else vadd acc (repulsionPairTotal config node other dt).1) v0
          applyDamping v1 damping) 0 velocities
  let meshes1 := idxMap (fun i m =>
    match nodes.find? (fun n => n.id == m.nodeId) with
    | none => m
    | some node =>
      if node.isCentral then m
      else { m with position := vadd m.position (vscale dt (velocities1.getD i ⟨0, 0, 0⟩)) }) 0 meshes
  let meshes2 := meshes1.map (fun m =>
    match nodes.find? (fun n => n.id == m.nodeId) with
    | none => m
    | some node => if node.isCentral then { m with position := ⟨0, 0, 0⟩ } else m)
  (meshes2, velocities1)

/-- `runEquilibriumCalculation` from the `part_000` spline view: skip
entirely above 50 meshes; otherwise zero all velocities, iterate
`min(200, 50 + 2·n)` force steps on the live meshes, then capture the
final live positions into the equilibrium cache — origin for central
meshes, a hole (`none`) where the mesh's node is missing.  The final
republication of positions to the node service is not modelled. -/
noncomputable def runEquilibriumCalculation (config : PhysicsConfig) (damping dt : ℝ)
    (s : P0State) : P0State :=
  if s.meshes.length > 50 then { s with isCalculatingEquilibrium := false }
  else
    let simulationSteps := min 200 (50 + 2 * s.meshes.length)
    let final := (fun p : List Mesh × List Vec3 =>
      equilibriumStep config damping dt s.nodes s.centralNode p.1 p.2)^[simulationSteps]
      (s.meshes, List.replicate s.meshes.length (⟨0, 0, 0⟩ : Vec3))
    let cache := final.1.map (fun m =>
      match s.nodes.find? (fun n => n.id == m.nodeId) with
      | none => (none : Option Vec3)
      | some node => if node.isCentral then some ⟨0, 0, 0⟩ else some m.position)
    { s with
      meshes := final.1
      velocities := final.2
      equilibriumPositions := cache
      isCalculatingEquilibrium := false }

/-- The dragging branch of `onMouseMove` in the `part_000` spline view:
the dragged mesh's position is driven to the pointer-projected point;
when the mesh carries a truthy (nonempty) `nodeId`, the service position
is updated (service state not modelled) and the mesh's velocity entry is
reset to zero. -/
def onMouseMoveDrag (s : P0State) (pos : Vec3) : P0State :=
  match s.draggedIdx with
  | none => s
  | some i =>
      let meshes1 := idxMap (fun j m =>
        if j = i then { m with position := pos } else m) 0 s.meshes
      let velocities1 :=
        if (s.meshes.getD i ⟨"", ⟨0, 0, 0⟩⟩).nodeId == "" then s.velocities
        else s.velocities.set i ⟨0, 0, 0⟩
      { s with meshes := meshes1, velocities := velocities1 }

/-! ## ClusterPlacement (spline-view.component.ts `calculateEquilibriumPositions`) -/

/-- JavaScript `ToInt32` of a number: truncate toward zero, then wrap into
the signed 32-bit range (the effect of `& 0xffffffff`). -/
def toInt32 (q : ℚ) : ℤ :=
  let t : ℤ := if 0 ≤ q then ⌊q⌋ else ⌈q⌉
  let m := (t % 4294967296 + 4294967296) % 4294967296
  if m < 2147483648 then m else m - 4294967296

/-- One step of `hashAttributeValues`: JavaScript computes
`((hash << 5) - hash + value) & 0xffffffff`, where `hash << 5` wraps the
shifted 32-bit hash, the subtraction and the addition of the (possibly
fractional) value are exact in doubles at these magnitudes, and the final
`&` is `ToInt32`. -/
def hashStep (h : ℤ) (a : ℚ) : ℤ :=
  toInt32 (((toInt32 ((h * 32 : ℤ) : ℚ) - h : ℤ) : ℚ) + a)

/-- `hashAttributeValues` from `spline-view.component.ts`: the polynomial
31-hash over the attribute sequence, returned through `Math.abs`. -/
def hashAttributeValues (attributes : List ℚ) : ℕ :=
  (attributes.foldl hashStep 0).natAbs

/-- Inserting a node into the attribute-keyed group map (`nodeGroups`):
the key is the attribute vector itself, standing for the string key
`attributes.join(',')` (the join is injective on numeric lists); existing
groups are extended in place, new groups appended — JavaScript `Map`
iteration preserves this insertion order. -/
def insertGrouped (gs : List (List ℚ × List Node)) (n : Node) :
    List (List ℚ × List Node) :=
  if gs.any (fun g => g.1 == n.attributes) then
    gs.map (fun g => if g.1 == n.attributes then (g.1, g.2 ++ [n]) else g)
  else gs ++ [(n.attributes, [n])]

/-- The first loop of `calculateEquilibriumPositions`: walk the meshes in
order, look every mesh's node up by id, and group the non-central found
nodes by their exact attribute vector. -/
def buildGroups (meshIds : List String) (nodes : List Node) :
    List (List ℚ × List Node) :=
  meshIds.foldl (fun gs mid =>
    match nodes.find? (fun n => n.id == mid) with
    | none => gs
    | some node => if node.isCentral then gs else insertGrouped gs node) []

/-- A group's base position: radial distance `15 + (1 - compatibility)*60`
from the origin, polar angle `(hash % 360)` degrees, height
`((reverseHash % 100) - 50) * 0.4`.  The same expression is recomputed in
the source both for a group's own placement and for other groups during
declustering. -/
noncomputable def groupBasePosition (centralAttrs : List ℚ) (key : List ℚ) : Vec3 :=
  let compatibility := compatTotal centralAttrs key
  let baseDistance : ℝ := 15 + (1 - (compatibility : ℝ)) * 60
  let attributeHash := hashAttributeValues key
  let angle : ℝ := ((attributeHash % 360 : ℕ) : ℝ) * (Real.pi / 180)
  let heightHash := hashAttributeValues key.reverse
  let height : ℝ := (((heightHash % 100 : ℕ) : ℝ) - 50) * 0.4
  ⟨Real.cos angle * baseDistance, height, Real.sin angle * baseDistance⟩

/-- A member's pre-declustering target: the base position for a singleton
group, otherwise a secondary circle around it (radius `3 + k*1.5`, angle
`(k/count)*2π`, alternating vertical offset `±2`). -/
noncomputable def memberBaseTarget (base : Vec3) (count k : ℕ) : Vec3 :=
  if count = 1 then base
  else
    let nodeAngle : ℝ := ((k : ℝ) / (count : ℝ)) * Real.pi * 2
    let clusterRadius : ℝ := 3 + (k : ℝ) * 1.5
    ⟨base.x + Real.cos nodeAngle * clusterRadius,
     base.y + (if k % 2 = 0 then 2 else -2),
     base.z + Real.sin nodeAngle * clusterRadius⟩

/-- One pass of the per-member declustering loop (`for iter`): accumulate
a repulsion away from every *other* group's base position within 16 units
(weighted by `(1 - similarity) * 3 / distance²`), apply it scaled by 0.3
when any was within range, then clamp the distance from the origin into
`[8, 120]` — `Vector3.normalize` leaves the zero vector unchanged, so an
exactly-zero target is left at the origin by the clamp. -/
noncomputable def declusterStep (centralAttrs : List ℚ) (keys : List (List ℚ))
    (key : List ℚ) (target : Vec3) : Vec3 :=
  let rep := keys.foldl (fun (acc : Vec3 × Bool) otherKey =>
    if otherKey == key then acc
    else
      let similarity := simTotal key otherKey
      let otherGroupPos := groupBasePosition centralAttrs otherKey
      let direction := vsub target otherGroupPos
      let distance := vlen direction
      if distance < 8 * 2 then
        (vadd acc.1 (vscale ((1 - (similarity : ℝ)) * 3.0 / (distance * distance))
          (vnormalize direction)), true)
      else acc) (⟨0, 0, 0⟩, false)
  let target1 := if rep.2 then vadd target (vscale 0.3 rep.1) else target
  let distanceFromCenter := vlen target1
  if distanceFromCenter > 120 then vscale 120 (vnormalize target1)
  else if distanceFromCenter < 8 then vscale 8 (vnormalize target1)
  else target1

/-- `calculateEquilibriumPositions` from `spline-view.component.ts`
(ClusterPlacement), as a function of the mesh id order, the service node
list and the central node.  Missing and central meshes get the origin (the
source writes the origin for them in its first loop; for a mesh whose
node is missing it would leave a hole only in the aliased-id corner case);
every grouped member's entry is its 10-fold declustered, clamped target. -/
noncomputable def calculateEquilibriumPositions (meshIds : List String)
    (nodes : List Node) (central : Node) : List Vec3 :=
  let groups := buildGroups meshIds nodes
  let keys := groups.map Prod.fst
  let out0 := meshIds.map (fun _ => (⟨0, 0, 0⟩ : Vec3))
  groups.foldl (fun out g =>
    let base := groupBasePosition central.attributes g.1
    g.2.enum.foldl (fun out2 p =>
      match meshIds.findIdx? (fun mid => mid == p.2.id) with
      | none => out2
      | some meshIndex =>
          out2.set meshIndex
            ((declusterStep central.attributes keys g.1)^[10]
              (memberBaseTarget base g.2.length p.1))) out) out0

/-- The projection to the node fields that ClusterPlacement reads: id,
attribute vector and central flag.  Positions, velocities, names, colors,
radii and cached compatibilities are never consulted. -/
def proj (n : Node) : String × List ℚ × Bool := (n.id, n.attributes, n.isCentral)

/-- The image of an attribute group under `proj`. -/
def gproj (g : List ℚ × List Node) :
    List ℚ × List (String × List ℚ × Bool) := (g.1, g.2.map proj)

/-- A concrete central node with single-entry preference vector `[50]`,
used by the concrete placement runs. -/
def exCentral : Node :=
  ⟨"central", "Central Node", [50], [], ⟨0, 0, 0⟩, ⟨0, 0, 0⟩, 2, "", true, .val 1⟩

/-- Concrete outer node `k` with attribute vector `[45]`. -/
def exOuter (k : ℕ) : Node :=
  ⟨"n" ++ toString k, "N", [45], [], ⟨0, 0, 0⟩, ⟨0, 0, 0⟩, 1, "", false, .undef⟩

/-! ## The two `stepPhysics` variants -/

/-- The spline-view component tick state. -/
structure SplineState where
  nodes : List Node
  centralNode : Option Node
  meshes : List Mesh
  equilibriumPositions : List Vec3
  draggedIdx : Option ℕ

/-- `stepPhysics` from `spline-view.component.ts`: on an empty cache,
(synchronously) compute the equilibrium positions and return without
touching any mesh; otherwise pin every central mesh to the origin and
interpolate every other non-dragged mesh toward its cached target at
closing speed 2, snapping only implicitly once within 0.1 units. -/
noncomputable def stepPhysicsSpline (dt : ℝ) (s : SplineState) : SplineState :=
  match s.centralNode with
  | none => s
  | some central =>
    if s.meshes.length = 0 then s
    else if s.equilibriumPositions.length = 0 then
      { s with equilibriumPositions :=
          calculateEquilibriumPositions (s.meshes.map Mesh.nodeId) s.nodes central }
    else
      { s with meshes := idxMap (fun i m =>
          match s.nodes.find? (fun n => n.id == m.nodeId) with
          | none => m
          | some node =>
            if node.isCentral then { m with position := ⟨0, 0, 0⟩ }
            else if s.draggedIdx = some i then m
            else
              match s.equilibriumPositions[i]? with
              | none => m
              | some target =>
                let distance := vlen (vsub m.position target)
                if distance > 0.1 then
                  let moved := vadd m.position
                    (vscale (min distance (2.0 * dt))
                      (vnormalize (vsub target m.position)))
                  { m with position := moved }
                else m) 0 s.meshes }

/-- `stepPhysics` from the `part_000` spline view: when the cache is empty
or a solve is in flight it (asynchronously) triggers the equilibrium
calculation and returns without touching any mesh position; otherwise
every non-dragged mesh — the central one included — is interpolated toward
its cached target at closing speed 2.  No mesh is pinned to the origin. -/
noncomputable def stepPhysicsPart0 (dt : ℝ) (s : P0State) : P0State :=
  match s.centralNode with
  | none => s
  | some _ =>
    if s.meshes.length = 0 then s
    else if s.equilibriumPositions.length = 0 ∨ s.isCalculatingEquilibrium = true then
      { s with isCalculatingEquilibrium := true }
    else
      { s with meshes := idxMap (fun i m =>
          if s.draggedIdx = some i then m
          else
            match s.equilibriumPositions[i]? with
            | none => m
            | some none => m
            | some (some target) =>
              let distance := vlen (vsub m.position target)
              if distance > 0.1 then
                let moved := vadd m.position
                  (vscale (min distance (2.0 * dt))
                    (vnormalize (vsub target m.position)))
                { m with position := moved }
              else m) 0 s.meshes }

end GalaxyTraits

namespace GalaxyTraits

/-! ## Helper lemmas on the metric fold -/

/-- Folding `s + g i` over a list distributes over the initial value. -/
theorem foldl_add_shift (g : ℕ → ℚ) (c : ℚ) (l : List ℕ) :
    l.foldl (fun s i => s + g i) c = c + l.foldl (fun s i => s + g i) 0 := by
  induction l generalizing c with
  | nil => simp
  | cons x xs ih => rw [List.foldl_cons, List.foldl_cons, ih, ih (0 + g x)]; ring

/-- The indexed difference fold used by the service equals the sum of
absolute differences over the zipped lists. -/
theorem diffFold_eq_zip_sum (as bs : List ℚ) :
    (List.range (min as.length bs.length)).foldl
        (fun s i => s + |as.getD i 0 - bs.getD i 0|) 0 =
      ((as.zip bs).map fun p => |p.1 - p.2|).sum := by
  induction as generalizing bs with
  | nil => simp
  | cons a as ih =>
    cases bs with
    | nil => simp
    | cons b bs =>
      have hrange :
          List.range (min (a :: as).length (b :: bs).length) =
            0 :: (List.range (min as.length bs.length)).map Nat.succ := by
        simp [List.length_cons, Nat.succ_min_succ, List.range_succ_eq_map]
      rw [hrange]
      simp only [List.foldl_cons, List.foldl_map, List.getD_cons_succ, List.getD_cons_zero,
        List.zip_cons_cons, List.map_cons, List.sum_cons, zero_add]
      rw [foldl_add_shift, ih bs]

/-! ## C1: the compatibility formula -/

/-- C1 counterexample: on two empty trait vectors (`L = 0`) the code's
compatibility is `NaN` (modelled `none`), not `0` as the claim states:
JavaScript computes `0 / 0 = NaN` and `Math.max(0, NaN) = NaN`. -/
theorem C1_counterexample : calculateCompatibility [] [] ≠ some 0 := by
  simp [calculateCompatibility]

/-- C1 (amended): whenever the common length `L = min(len(prefs),
len(attrs))` is positive, `calculateCompatibility` returns exactly the
spec's value `max(0, 1 - sum/(L*100))`; when `L = 0` the result is `NaN`
(a non-number), not `0`. -/
theorem C1_compat_formula (prefs attrs : List ℚ)
    (h : 0 < min prefs.length attrs.length) :
    calculateCompatibility prefs attrs = some (specCompatibility prefs attrs) := by
  have hne : ((min prefs.length attrs.length : ℕ) : ℚ) * 100 ≠ 0 :=
    mul_ne_zero (ne_of_gt (by exact_mod_cast h)) (by norm_num)
  unfold calculateCompatibility specCompatibility
  rw [if_neg hne, diffFold_eq_zip_sum]

/-- C1 witness: the amended theorem applied at a concrete input. -/
theorem C1_witness :
    0 < min ([50, 60] : List ℚ).length ([40, 60] : List ℚ).length ∧
      calculateCompatibility [50, 60] [40, 60] =
        some (specCompatibility [50, 60] [40, 60]) :=
  ⟨by decide, C1_compat_formula [50, 60] [40, 60] (by decide)⟩

/-! ## C2 helpers: the central-node invariant -/

/-- Outer nodes are generated with `isCentral = false`. -/
theorem outerNode_isCentral (d : List String) (n : ℕ) (p : ℕ × OuterRand) :
    (outerNode d n p).isCentral = false := rfl

/-- `generateNodes` establishes the central-node invariant. -/
theorem generateNodes_invariant (numAttributes : ℕ) (prefs : List ℚ)
    (rands : List OuterRand) :
    centralInvariant (generateNodes numAttributes prefs rands) := by
  unfold centralInvariant generateNodes
  constructor
  · rw [List.filter_cons_of_pos (by rfl)]
    have hnil : (rands.enum.map
        (outerNode (defaultNames.take numAttributes) rands.length)).filter
          (fun n => n.isCentral) = [] := by
      rw [List.filter_eq_nil_iff]
      intro n hn
      obtain ⟨p, _, rfl⟩ := List.mem_map.mp hn
      simp [outerNode_isCentral]
    rw [hnil]
    rfl
  · intro n hn h
    rcases List.mem_cons.mp hn with rfl | hmem
    · rfl
    · obtain ⟨p, _, rfl⟩ := List.mem_map.mp hmem
      simp [outerNode_isCentral] at h

/-- `setCentralNode` with an id borne by exactly one node leaves exactly
one node flagged central. -/
theorem setCentralNode_unique (nodes : List Node) (nodeId : String)
    (h : (nodes.filter (fun n => n.id == nodeId)).length = 1) :
    ((setCentralNode nodes nodeId).filter (fun n => n.isCentral)).length = 1 := by
  unfold setCentralNode
  cases hf : nodes.find? (fun n => n.id == nodeId) with
  | none =>
      exfalso
      have hnil : nodes.filter (fun n => n.id == nodeId) = [] := by
        rw [List.filter_eq_nil_iff]
        intro a ha
        simpa using List.find?_eq_none.mp hf a ha
      rw [hnil] at h
      simp at h
  | some n0 =>
      rw [List.filter_map, List.length_map]
      exact h

/-- Replacing one list entry by a node with the same `isCentral` flag
preserves the number of central nodes. -/
theorem length_filter_set (nodes : List Node) (i : ℕ) (n n' : Node)
    (hget : nodes[i]? = some n) (hc : n'.isCentral = n.isCentral) :
    ((nodes.set i n').filter (fun m => m.isCentral)).length =
      (nodes.filter (fun m => m.isCentral)).length := by
  induction nodes generalizing i with
  | nil => simp at hget
  | cons a l ih =>
    cases i with
    | zero =>
        simp only [List.getElem?_cons_zero, Option.some.injEq] at hget
        subst hget
        simp only [List.set_cons_zero, List.filter_cons, hc]
        cases h : a.isCentral <;> simp [h]
    | succ j =>
        simp only [List.getElem?_cons_succ] at hget
        simp only [List.set_cons_succ, List.filter_cons]
        cases h : a.isCentral <;> simp [h, ih j hget]

/-- Replacing one list entry by a node with the same `isCentral` and
`compatibility` fields preserves the compatibility side of the invariant. -/
theorem ball_compat_set (nodes : List Node) (i : ℕ) (n n' : Node)
    (hget : nodes[i]? = some n) (hc : n'.isCentral = n.isCentral)
    (hk : n'.compatibility = n.compatibility)
    (h : ∀ m ∈ nodes, m.isCentral = true → m.compatibility = .val 1) :
    ∀ m ∈ nodes.set i n', m.isCentral = true → m.compatibility = .val 1 := by
  intro m hm hmc
  rcases List.mem_or_eq_of_mem_set hm with hmem | rfl
  · exact h m hmem hmc
  · have hn : n ∈ nodes := List.getElem?_mem hget
    rw [hk]
    rw [hc] at hmc
    exact h n hn hmc

/-- `updateNodeAttributeValue` (an attribute edit) preserves the
central-node invariant: it touches neither `isCentral` nor the cached
compatibility. -/
theorem updateNodeAttributeValue_invariant (nodes : List Node) (nodeId : String)
    (idx : ℕ) (v : ℚ) (h : centralInvariant nodes) :
    centralInvariant (updateNodeAttributeValue nodes nodeId idx v) := by
  cases hf : nodes.findIdx? (fun n => n.id == nodeId) with
  | none => simp only [updateNodeAttributeValue, hf]; exact h
  | some i =>
      cases hg : nodes[i]? with
      | none => simp only [updateNodeAttributeValue, hf, hg]; exact h
      | some n =>
          simp only [updateNodeAttributeValue, hf, hg]
          refine ⟨?_, ball_compat_set nodes i n
            { n with attributes := n.attributes.set idx (max 0 (min 100 v)) } hg rfl rfl h.2⟩
          rw [length_filter_set nodes i n
            { n with attributes := n.attributes.set idx (max 0 (min 100 v)) } hg rfl]
          exact h.1

/-- `updateAllCompatibilities` preserves the central-node invariant:
central nodes are returned unchanged and `isCentral` flags are kept. -/
theorem updateAllCompatibilities_invariant (nodes : List Node) (prefs : List ℚ)
    (h : centralInvariant nodes) :
    centralInvariant (updateAllCompatibilities nodes prefs) := by
  obtain ⟨h1, h2⟩ := h
  unfold updateAllCompatibilities
  constructor
  · rw [List.filter_map, List.length_map]
    have hfc := List.filter_congr
      (l := nodes)
      (p := (fun m => m.isCentral) ∘ fun n =>
        if n.isCentral then n
        else { n with
          compatibility := toCompatVal (calculateCompatibility prefs n.attributes) })
      (q := fun m => m.isCentral)
      (by intro a _; by_cases hc : a.isCentral <;> simp [Function.comp, hc])
    rw [hfc]
    exact h1
  · intro m hm hmc
    obtain ⟨n, hn, rfl⟩ := List.mem_map.mp hm
    by_cases hc : n.isCentral
    · rw [if_pos hc] at hmc ⊢
      exact h2 n hn hmc
    · rw [if_neg hc] at hmc
      exact absurd hmc (by simpa using hc)

/-! ## C2: the central-node invariant across operations -/

/-- C2 counterexample: starting from a freshly generated two-node set and
reassigning the central role to the outer node (`setCentralNode`), exactly
one node is flagged central but its cached compatibility is still absent
(`undefined`), not `1` — `setCentralNode` rewrites only the `isCentral`
flags. -/
theorem C2_counterexample :
    ¬ centralInvariant
        (setCentralNode (generateNodes 1 [50] [⟨[0], 0, 0, 0⟩]) "node-0") := by
  intro h
  have h2 := h.2
  simp only [centralInvariant, generateNodes, setCentralNode, defaultNames,
    centralNodeOf, outerNode, List.enum, List.find?, List.map,
    List.forall_mem_cons,
    show ("central" == "node-0") = false from rfl,
    show ("node-" ++ toString 0 == "node-0") = true from rfl] at h2
  exact absurd (h2.2.1 trivial) (by simp)

/-- C2 (amended): `generateNodes` establishes the invariant — exactly one
node has `isCentral = true` and its compatibility is `1`; the invariant is
preserved by attribute edits (`updateNodeAttributeValue`) and by
`updateAllCompatibilities`; and `setCentralNode` (with an id borne by
exactly one node) preserves the exactly-one-central part — but it does not
restore the new central node's compatibility to `1`; that value stays
whatever was cached before. -/
theorem C2_invariant_amended :
    (∀ (numAttributes : ℕ) (prefs : List ℚ) (rands : List OuterRand),
        centralInvariant (generateNodes numAttributes prefs rands)) ∧
    (∀ (nodes : List Node) (nodeId : String),
        (nodes.filter (fun n => n.id == nodeId)).length = 1 →
        ((setCentralNode nodes nodeId).filter (fun n => n.isCentral)).length = 1) ∧
    (∀ (nodes : List Node) (nodeId : String) (idx : ℕ) (v : ℚ),
        centralInvariant nodes →
        centralInvariant (updateNodeAttributeValue nodes nodeId idx v)) ∧
    (∀ (nodes : List Node) (prefs : List ℚ),
        centralInvariant nodes →
        centralInvariant (updateAllCompatibilities nodes prefs)) :=
  ⟨generateNodes_invariant, setCentralNode_unique,
   updateNodeAttributeValue_invariant, updateAllCompatibilities_invariant⟩

/-- C2 witness: the amended theorem applied at concrete inputs, with every
hypothesis discharged there. -/
theorem C2_witness :
    centralInvariant (generateNodes 1 [50] [⟨[0], 0, 0, 0⟩]) ∧
    ((((generateNodes 1 [50] [⟨[0], 0, 0, 0⟩]).filter
          (fun n => n.id == "central")).length = 1) ∧
      ((setCentralNode (generateNodes 1 [50] [⟨[0], 0, 0, 0⟩]) "central").filter
          (fun n => n.isCentral)).length = 1) ∧
    centralInvariant
      (updateNodeAttributeValue (generateNodes 1 [50] [⟨[0], 0, 0, 0⟩]) "node-0" 0 150) ∧
    centralInvariant
      (updateAllCompatibilities (generateNodes 1 [50] [⟨[0], 0, 0, 0⟩]) [50]) :=
  ⟨C2_invariant_amended.1 1 [50] [⟨[0], 0, 0, 0⟩],
   ⟨by simp [generateNodes, defaultNames, centralNodeOf, outerNode, List.enum]; decide,
    C2_invariant_amended.2.1 _ "central"
      (by simp [generateNodes, defaultNames, centralNodeOf, outerNode, List.enum]; decide)⟩,
   C2_invariant_amended.2.2.1 _ "node-0" 0 150 (C2_invariant_amended.1 1 [50] _),
   C2_invariant_amended.2.2.2 _ [50] (C2_invariant_amended.1 1 [50] _)⟩

/-! ## C10: attribute edits clamp into [0, 100] -/

/-- C10: for a node-set containing a node with the given id (found at
index `i`) and an in-range attribute index, `updateNodeAttributeValue`
stores exactly `max(0, min(100, v))` at that index of that node's trait
vector — an out-of-range value is silently clamped, not stored raw or
rejected. -/
theorem C10_attribute_clamped (nodes : List Node) (nodeId : String) (idx : ℕ) (v : ℚ)
    (i : ℕ) (n : Node)
    (hfind : nodes.findIdx? (fun m => m.id == nodeId) = some i)
    (hget : nodes[i]? = some n)
    (hidx : idx < n.attributes.length) :
    ((updateNodeAttributeValue nodes nodeId idx v)[i]?.bind
        fun m => m.attributes[idx]?) = some (max 0 (min 100 v)) := by
  have hi : i < nodes.length := by
    rcases List.getElem?_eq_some_iff.mp hget with ⟨hlt, _⟩
    exact hlt
  simp only [updateNodeAttributeValue, hfind, hget]
  rw [List.getElem?_set_self hi]
  simp only [Option.some_bind]
  exact List.getElem?_set_self hidx

/-- C10 witness: the clamping theorem applied at a concrete input (value
150 stored as 100). -/
theorem C10_witness :
    (([⟨"a", "A", [5], ["x"], ⟨0, 0, 0⟩, ⟨0, 0, 0⟩, 1, "#fff", false, .undef⟩] :
        List Node).findIdx? (fun m => m.id == "a") = some 0) ∧
      ((updateNodeAttributeValue
          [⟨"a", "A", [5], ["x"], ⟨0, 0, 0⟩, ⟨0, 0, 0⟩, 1, "#fff", false, .undef⟩]
          "a" 0 150)[0]?.bind fun m => m.attributes[0]?) = some (max 0 (min 100 150)) :=
  ⟨by rfl,
   C10_attribute_clamped _ "a" 0 150 0 _ (by rfl) (by rfl) (by decide)⟩

/-! ## Vector length lemmas -/

/-- The squared length is nonnegative. -/
theorem vlenSq_nonneg (v : Vec3) : 0 ≤ vlenSq v := by
  unfold vlenSq
  nlinarith [mul_self_nonneg v.x, mul_self_nonneg v.y, mul_self_nonneg v.z]

/-- The length is nonnegative. -/
theorem vlen_nonneg (v : Vec3) : 0 ≤ vlen v := Real.sqrt_nonneg _

/-- Length of a scalar multiple. -/
theorem vlen_scale (c : ℝ) (v : Vec3) : vlen (vscale c v) = |c| * vlen v := by
  unfold vlen vlenSq vscale
  rw [show c * v.x * (c * v.x) + c * v.y * (c * v.y) + c * v.z * (c * v.z) =
      c ^ 2 * (v.x * v.x + v.y * v.y + v.z * v.z) by ring]
  rw [Real.sqrt_mul (sq_nonneg c), Real.sqrt_sq_eq_abs]

/-- The zero vector has length zero. -/
theorem vlen_zero : vlen ⟨0, 0, 0⟩ = 0 := by
  simp [vlen, vlenSq]

/-- Length of a vector on the x-axis. -/
theorem vlen_xaxis (a : ℝ) : vlen ⟨a, 0, 0⟩ = |a| := by
  unfold vlen vlenSq
  rw [show a * a + 0 * 0 + 0 * 0 = a ^ 2 by ring, Real.sqrt_sq_eq_abs]

/-- A vector of zero length is the zero vector. -/
theorem eq_zero_of_vlen_eq_zero {v : Vec3} (h : vlen v = 0) : v = ⟨0, 0, 0⟩ := by
  unfold vlen at h
  have hsq : vlenSq v = 0 := by
    have := Real.sqrt_eq_zero (vlenSq_nonneg v) |>.mp h
    exact this
  unfold vlenSq at hsq
  obtain ⟨x, y, z⟩ := v
  simp only at hsq
  have hx : x = 0 := by nlinarith [sq_nonneg x, sq_nonneg y, sq_nonneg z]
  have hy : y = 0 := by nlinarith [sq_nonneg x, sq_nonneg y, sq_nonneg z]
  have hz : z = 0 := by nlinarith [sq_nonneg x, sq_nonneg y, sq_nonneg z]
  simp [hx, hy, hz]

/-! ## C8: repulsion forces are exact negatives -/

/-- C8: whenever `calculateRepulsionForce` returns a pair of forces (that
is, the similarity is a number), the force applied to node 1 is the exact
componentwise negation of the force applied to node 2, for every pair of
nodes, configuration and timestep. -/
theorem C8_repulsion_opposite (config : PhysicsConfig) (node1 node2 : Node) (dt : ℝ)
    (p : Vec3 × Vec3) (h : calculateRepulsionForce config node1 node2 dt = some p) :
    p.1 = vneg p.2 := by
  unfold calculateRepulsionForce at h
  rcases Option.map_eq_some'.mp h with ⟨s, _, hfs⟩
  rw [← hfs]

/-- C8 witness: the theorem applied at a concrete input (two coincident
nodes with equal single-entry attribute vectors; the forces are both zero,
and zero is its own negation). -/
theorem C8_witness :
    calculateRepulsionForce defaultPhysicsConfig
        ⟨"a", "A", [50], [], ⟨0, 0, 0⟩, ⟨0, 0, 0⟩, 1, "", false, .undef⟩
        ⟨"b", "B", [50], [], ⟨0, 0, 0⟩, ⟨0, 0, 0⟩, 1, "", false, .undef⟩ 1 =
      some (⟨0, 0, 0⟩, ⟨0, 0, 0⟩) ∧
    (⟨0, 0, 0⟩ : Vec3) = vneg ⟨0, 0, 0⟩ := by
  have hval : calculateRepulsionForce defaultPhysicsConfig
      ⟨"a", "A", [50], [], ⟨0, 0, 0⟩, ⟨0, 0, 0⟩, 1, "", false, .undef⟩
      ⟨"b", "B", [50], [], ⟨0, 0, 0⟩, ⟨0, 0, 0⟩, 1, "", false, .undef⟩ 1 =
      some (⟨0, 0, 0⟩, ⟨0, 0, 0⟩) := by
    have hsim : calculateSimilarity [(50 : ℚ)] [50] = some 1 := by
      unfold calculateSimilarity
      norm_num [List.range_succ]
    unfold calculateRepulsionForce
    rw [hsim]
    simp only [Option.map_some', Option.some.injEq]
    unfold vsub vneg vlen vlenSq defaultPhysicsConfig
    norm_num
  exact ⟨hval, C8_repulsion_opposite defaultPhysicsConfig _ _ 1 (⟨0, 0, 0⟩, ⟨0, 0, 0⟩) hval⟩

/-! ## C9: attraction magnitude versus distance -/

/-- C9 counterexample: with compatibility fixed at `0` (central
preferences `[100]` against attributes `[0]`) and the default
configuration (`K = 100 > 0`), the attraction force is the zero vector at
distance 1 and still the zero vector at distance 2: the magnitude does not
strictly decrease as the distance grows. -/
theorem C9_counterexample :
    vlen (vsub (⟨0, 0, 0⟩ : Vec3) ⟨1, 0, 0⟩) < vlen (vsub (⟨0, 0, 0⟩ : Vec3) ⟨2, 0, 0⟩) ∧
    calculateAttractionForce defaultPhysicsConfig
        ⟨"c", "C", [100], [], ⟨0, 0, 0⟩, ⟨0, 0, 0⟩, 2, "", true, .val 1⟩
        ⟨"a", "A", [0], [], ⟨1, 0, 0⟩, ⟨0, 0, 0⟩, 1, "", false, .undef⟩ 1 =
      some ⟨0, 0, 0⟩ ∧
    calculateAttractionForce defaultPhysicsConfig
        ⟨"c", "C", [100], [], ⟨0, 0, 0⟩, ⟨0, 0, 0⟩, 2, "", true, .val 1⟩
        ⟨"b", "B", [0], [], ⟨2, 0, 0⟩, ⟨0, 0, 0⟩, 1, "", false, .undef⟩ 1 =
      some ⟨0, 0, 0⟩ ∧
    ¬ vlen (⟨0, 0, 0⟩ : Vec3) < vlen (⟨0, 0, 0⟩ : Vec3) := by
  have hcomp : calculateCompatibility [100] [0] = some 0 := by
    unfold calculateCompatibility
    norm_num [List.range_succ]
  refine ⟨?_, ?_, ?_, by simp⟩
  · have e1 : vsub (⟨0, 0, 0⟩ : Vec3) ⟨1, 0, 0⟩ = ⟨-1, 0, 0⟩ := by simp [vsub]
    have e2 : vsub (⟨0, 0, 0⟩ : Vec3) ⟨2, 0, 0⟩ = ⟨-2, 0, 0⟩ := by simp [vsub]
    rw [e1, e2, vlen_xaxis, vlen_xaxis]
    norm_num
  · unfold calculateAttractionForce
    rw [show (⟨"c", "C", [100], [], ⟨0, 0, 0⟩, ⟨0, 0, 0⟩, 2, "", true, .val 1⟩ :
      Node).attributes = [100] from rfl,
      show (⟨"a", "A", [0], [], ⟨1, 0, 0⟩, ⟨0, 0, 0⟩, 1, "", false, .undef⟩ :
      Node).attributes = [0] from rfl, hcomp]
    simp only [Option.map_some', Option.some.injEq]
    norm_num [Vec3.mk.injEq]
  · unfold calculateAttractionForce
    rw [show (⟨"c", "C", [100], [], ⟨0, 0, 0⟩, ⟨0, 0, 0⟩, 2, "", true, .val 1⟩ :
      Node).attributes = [100] from rfl,
      show (⟨"b", "B", [0], [], ⟨2, 0, 0⟩, ⟨0, 0, 0⟩, 1, "", false, .undef⟩ :
      Node).attributes = [0] from rfl, hcomp]
    simp only [Option.map_some', Option.some.injEq]
    norm_num [Vec3.mk.injEq]

/-- C9 (amended): for positive compatibility, positive `K`, positive
timestep and positive minimum clamp distance, the attraction force
magnitude is strictly decreasing in the central-to-node distance over the
unclamped range: if both nodes carry the same attributes and
`minDistance ≤ distA < distB`, the force on the farther node is strictly
smaller in norm.  (At compatibility `0` the force is constantly zero, and
below the clamp the distance is replaced by `minDistance`.) -/
theorem C9_attraction_decreasing (config : PhysicsConfig) (central nodeA nodeB : Node)
    (dt : ℝ) (q : ℚ) (fA fB : Vec3)
    (hattr : nodeB.attributes = nodeA.attributes)
    (hcomp : calculateCompatibility central.attributes nodeA.attributes = some q)
    (hq : 0 < (q : ℝ))
    (hK : 0 < config.attractionK) (hdt : 0 < dt)
    (hminpos : 0 < config.minDistance)
    (hA : config.minDistance ≤ vlen (vsub central.position nodeA.position))
    (hAB : vlen (vsub central.position nodeA.position) <
      vlen (vsub central.position nodeB.position))
    (hfA : calculateAttractionForce config central nodeA dt = some fA)
    (hfB : calculateAttractionForce config central nodeB dt = some fB) :
    vlen fB < vlen fA := by
  set dvA := vsub central.position nodeA.position with hdvA
  set dvB := vsub central.position nodeB.position with hdvB
  set dA := vlen dvA with hdAdef
  set dB := vlen dvB with hdBdef
  have hdA : 0 < dA := lt_of_lt_of_le hminpos hA
  have hdB : 0 < dB := hdA.trans hAB
  have hmaxA : max dA config.minDistance = dA := max_eq_left hA
  have hmaxB : max dB config.minDistance = dB :=
    max_eq_left (hA.trans (le_of_lt hAB))
  unfold calculateAttractionForce at hfA hfB
  rw [hcomp] at hfA
  rw [hattr, hcomp] at hfB
  simp only [Option.map_some', Option.some.injEq] at hfA hfB
  rw [← hdvA, ← hdAdef, hmaxA] at hfA
  rw [← hdvB, ← hdBdef, hmaxB] at hfB
  have hsA : fA = vscale (config.attractionK * (q : ℝ) / (dA * dA) * dt / dA) dvA := by
    rw [← hfA]
    unfold vscale
    simp only [Vec3.mk.injEq]
    exact ⟨by ring, by ring, by ring⟩
  have hsB : fB = vscale (config.attractionK * (q : ℝ) / (dB * dB) * dt / dB) dvB := by
    rw [← hfB]
    unfold vscale
    simp only [Vec3.mk.injEq]
    exact ⟨by ring, by ring, by ring⟩
  have hposA : 0 < config.attractionK * (q : ℝ) / (dA * dA) * dt / dA := by positivity
  have hposB : 0 < config.attractionK * (q : ℝ) / (dB * dB) * dt / dB := by positivity
  rw [hsA, hsB, vlen_scale, vlen_scale, abs_of_pos hposA, abs_of_pos hposB,
    ← hdAdef, ← hdBdef]
  have hfinA : config.attractionK * (q : ℝ) / (dA * dA) * dt / dA * dA =
      config.attractionK * (q : ℝ) * dt / (dA * dA) := by
    field_simp
    ring
  have hfinB : config.attractionK * (q : ℝ) / (dB * dB) * dt / dB * dB =
      config.attractionK * (q : ℝ) * dt / (dB * dB) := by
    field_simp
    ring
  rw [hfinA, hfinB]
  exact div_lt_div_of_pos_left (by positivity)
    (by positivity) (mul_self_lt_mul_self (le_of_lt hdA) hAB)

/-- C9 witness: the amended theorem applied at a concrete input — equal
attributes `[50]` (compatibility 1), central at the origin, nodes at
distances 1 and 2 on the x-axis, forces `(-100, 0, 0)` and `(-25, 0, 0)`. -/
theorem C9_witness :
    vlen (⟨-25, 0, 0⟩ : Vec3) < vlen (⟨-100, 0, 0⟩ : Vec3) := by
  have hcomp : calculateCompatibility [50] [50] = some 1 := by
    unfold calculateCompatibility
    norm_num [List.range_succ]
  have hv1 : vsub (⟨0, 0, 0⟩ : Vec3) ⟨1, 0, 0⟩ = ⟨-1, 0, 0⟩ := by simp [vsub]
  have hv2 : vsub (⟨0, 0, 0⟩ : Vec3) ⟨2, 0, 0⟩ = ⟨-2, 0, 0⟩ := by simp [vsub]
  have hl1 : vlen (vsub (⟨0, 0, 0⟩ : Vec3) ⟨1, 0, 0⟩) = 1 := by
    rw [hv1, vlen_xaxis]; norm_num
  have hl2 : vlen (vsub (⟨0, 0, 0⟩ : Vec3) ⟨2, 0, 0⟩) = 2 := by
    rw [hv2, vlen_xaxis]; norm_num
  have hfA : calculateAttractionForce defaultPhysicsConfig
      ⟨"c", "C", [50], [], ⟨0, 0, 0⟩, ⟨0, 0, 0⟩, 2, "", true, .val 1⟩
      ⟨"a", "A", [50], [], ⟨1, 0, 0⟩, ⟨0, 0, 0⟩, 1, "", false, .undef⟩ 1 =
      some ⟨-100, 0, 0⟩ := by
    unfold calculateAttractionForce defaultPhysicsConfig
    dsimp only
    rw [hcomp]
    simp only [Option.map_some', Option.some.injEq]
    rw [hv1, vlen_xaxis]
    rw [show |(-1 : ℝ)| = 1 by norm_num]
    rw [max_eq_left (show (0.1 : ℝ) ≤ 1 by norm_num)]
    simp only [Vec3.mk.injEq]
    norm_num
  have hfB : calculateAttractionForce defaultPhysicsConfig
      ⟨"c", "C", [50], [], ⟨0, 0, 0⟩, ⟨0, 0, 0⟩, 2, "", true, .val 1⟩
      ⟨"b", "B", [50], [], ⟨2, 0, 0⟩, ⟨0, 0, 0⟩, 1, "", false, .undef⟩ 1 =
      some ⟨-25, 0, 0⟩ := by
    unfold calculateAttractionForce defaultPhysicsConfig
    dsimp only
    rw [hcomp]
    simp only [Option.map_some', Option.some.injEq]
    rw [hv2, vlen_xaxis]
    rw [show |(-2 : ℝ)| = 2 by norm_num]
    rw [max_eq_left (show (0.1 : ℝ) ≤ 2 by norm_num)]
    simp only [Vec3.mk.injEq]
    norm_num
  exact C9_attraction_decreasing defaultPhysicsConfig
    ⟨"c", "C", [50], [], ⟨0, 0, 0⟩, ⟨0, 0, 0⟩, 2, "", true, .val 1⟩
    ⟨"a", "A", [50], [], ⟨1, 0, 0⟩, ⟨0, 0, 0⟩, 1, "", false, .undef⟩
    ⟨"b", "B", [50], [], ⟨2, 0, 0⟩, ⟨0, 0, 0⟩, 1, "", false, .undef⟩
    1 1 ⟨-100, 0, 0⟩ ⟨-25, 0, 0⟩ rfl hcomp (by norm_num)
    (by norm_num [defaultPhysicsConfig]) (by norm_num)
    (by norm_num [defaultPhysicsConfig])
    (by rw [show vsub (⟨"c", "C", [50], [], ⟨0, 0, 0⟩, ⟨0, 0, 0⟩, 2, "", true,
        .val 1⟩ : Node).position (⟨"a", "A", [50], [], ⟨1, 0, 0⟩, ⟨0, 0, 0⟩, 1,
        "", false, .undef⟩ : Node).position = vsub ⟨0, 0, 0⟩ ⟨1, 0, 0⟩ from rfl,
      hl1]; norm_num [defaultPhysicsConfig])
    (by rw [show vsub (⟨"c", "C", [50], [], ⟨0, 0, 0⟩, ⟨0, 0, 0⟩, 2, "", true,
        .val 1⟩ : Node).position (⟨"a", "A", [50], [], ⟨1, 0, 0⟩, ⟨0, 0, 0⟩, 1,
        "", false, .undef⟩ : Node).position = vsub ⟨0, 0, 0⟩ ⟨1, 0, 0⟩ from rfl,
      show vsub (⟨"c", "C", [50], [], ⟨0, 0, 0⟩, ⟨0, 0, 0⟩, 2, "", true,
        .val 1⟩ : Node).position (⟨"b", "B", [50], [], ⟨2, 0, 0⟩, ⟨0, 0, 0⟩, 1,
        "", false, .undef⟩ : Node).position = vsub ⟨0, 0, 0⟩ ⟨2, 0, 0⟩ from rfl,
      hl1, hl2]; norm_num)
    hfA hfB

/-! ## Indexed map access lemmas -/

/-- Entry `j` of an indexed map is the image of entry `j` under `f (k+j)`. -/
theorem idxMap_getElem? (f : ℕ → α → β) (k : ℕ) (l : List α) (j : ℕ) :
    (idxMap f k l)[j]? = (l[j]?).map (f (k + j)) := by
  induction l generalizing k j with
  | nil => simp [idxMap]
  | cons a as ih =>
    cases j with
    | zero => simp [idxMap]
    | succ m =>
        simp only [idxMap, List.getElem?_cons_succ, ih (k + 1) m]
        rw [show k + 1 + m = k + (m + 1) by omega]

/-! ## C4: what a tick does to the dragged node -/

/-- C4 counterexample: a dragged sphere still accumulates attraction force
into its velocity during the tick.  With the central sphere at the origin,
one dragged sphere at distance 1 with equal attributes (compatibility 1),
`K = 100` and `dt = 1`, the tick leaves the dragged sphere's velocity at
`(-100, 0, 0)` — not the zero vector the claim requires. -/
theorem C4_counterexample :
    (stepPhysicsGalaxy [50] 100 20 0.98 1
        ⟨⟨0, 0, 0⟩, [⟨1, 0, 0⟩], [⟨0, 0, 0⟩], [[50]], some 0⟩).velocities[0]? =
      some ⟨-100, 0, 0⟩ ∧
    (⟨-100, 0, 0⟩ : Vec3) ≠ ⟨0, 0, 0⟩ := by
  constructor
  · simp only [stepPhysicsGalaxy, repulsionPass, idxMap,
      show List.range 1 = [0] from rfl,
      List.foldl_cons, List.foldl_nil, List.length_cons, List.length_nil]
    norm_num [compatibilityLib, vsub, vadd, vscale, vlenSq, vlen, vnormalize,
      List.range_succ, List.getD_cons_zero, Real.sqrt_one, Vec3.mk.injEq, max_def]
  · intro h
    rw [Vec3.mk.injEq] at h
    norm_num at h

/-- C4 (amended): the galaxy tick excludes the dragged sphere only from
position integration and damping — its position is unchanged by the tick
while forces still accumulate into its velocity; and it is each drag-move
event (`onMouseMove` while dragging, `part_000` variant) that drives the
dragged mesh's position externally and resets its velocity to zero.
Releasing the drag itself does not touch the velocity. -/
theorem C4_drag_amended :
    (∀ (prefs : List ℚ) (kAtt kRep damp dt : ℝ) (s : GalaxyState) (i : ℕ),
        s.draggedIdx = some i →
        (stepPhysicsGalaxy prefs kAtt kRep damp dt s).spheres[i]? = s.spheres[i]?) ∧
    (∀ (s : P0State) (pos : Vec3) (i : ℕ),
        s.draggedIdx = some i → i < s.velocities.length →
        ¬ (s.meshes.getD i ⟨"", ⟨0, 0, 0⟩⟩).nodeId = "" →
        (onMouseMoveDrag s pos).velocities[i]? = some ⟨0, 0, 0⟩ ∧
        ((onMouseMoveDrag s pos).meshes[i]?).map Mesh.position =
          (s.meshes[i]?).map fun _ => pos) := by
  constructor
  · intro prefs kAtt kRep damp dt s i hdrag
    simp only [stepPhysicsGalaxy]
    rw [idxMap_getElem?]
    cases hm : s.spheres[i]? with
    | none => rfl
    | some p => simp [hdrag]
  · intro s pos i hdrag hlen hid
    unfold onMouseMoveDrag
    rw [hdrag]
    constructor
    · simp only
      rw [if_neg (by simpa using hid)]
      exact List.getElem?_set_self hlen
    · simp only
      rw [idxMap_getElem?]
      cases hm : s.meshes[i]? with
      | none => rfl
      | some m => simp

/-- C4 witness: both amended parts applied at concrete inputs. -/
theorem C4_witness :
    ((stepPhysicsGalaxy [50] 100 20 0.98 1
        ⟨⟨0, 0, 0⟩, [⟨1, 0, 0⟩], [⟨0, 0, 0⟩], [[50]], some 0⟩).spheres[0]? =
      (⟨⟨0, 0, 0⟩, [⟨1, 0, 0⟩], [⟨0, 0, 0⟩], [[50]], some 0⟩ :
        GalaxyState).spheres[0]?) ∧
    ((onMouseMoveDrag ⟨[], none, [⟨"node-0", ⟨1, 0, 0⟩⟩], [⟨5, 0, 0⟩], [], some 0, false⟩
        ⟨7, 8, 9⟩).velocities[0]? = some ⟨0, 0, 0⟩ ∧
      ((onMouseMoveDrag ⟨[], none, [⟨"node-0", ⟨1, 0, 0⟩⟩], [⟨5, 0, 0⟩], [], some 0, false⟩
          ⟨7, 8, 9⟩).meshes[0]?).map Mesh.position =
        ((⟨[], none, [⟨"node-0", ⟨1, 0, 0⟩⟩], [⟨5, 0, 0⟩], [], some 0, false⟩ :
          P0State).meshes[0]?).map fun _ => ⟨7, 8, 9⟩) :=
  ⟨C4_drag_amended.1 [50] 100 20 0.98 1 _ 0 rfl,
   C4_drag_amended.2 _ ⟨7, 8, 9⟩ 0 rfl (by decide) (by decide)⟩

/-! ## Totalized metrics agree with the service metrics -/

/-- Whenever the common attribute prefix is nonempty, the totalized
compatibility is exactly the service result. -/
theorem calculateCompatibility_eq_total (a b : List ℚ)
    (h : min a.length b.length ≠ 0) :
    calculateCompatibility a b = some (compatTotal a b) := by
  unfold calculateCompatibility compatTotal
  rw [if_neg (mul_ne_zero (Nat.cast_ne_zero.mpr h) (by norm_num))]

/-- Whenever the common attribute prefix is nonempty, the totalized
similarity is exactly the service result. -/
theorem calculateSimilarity_eq_total (a b : List ℚ)
    (h : min a.length b.length ≠ 0) :
    calculateSimilarity a b = some (simTotal a b) := by
  unfold calculateSimilarity simTotal
  rw [if_neg (mul_ne_zero (Nat.cast_ne_zero.mpr h) (by norm_num))]

/-! ## C5: the equilibrium solve and the live positions -/

/-- C5 counterexample: a single force iteration of the `part_000`
equilibrium solve writes directly to a live, rendered mesh position — with
the central node at the origin and one outer node/mesh at `(2, 0, 0)`
(compatibility 1), one `equilibriumStep` moves the live mesh to
`(1.993728, 0, 0)` while no equilibrium cache has been captured yet. -/
theorem C5_counterexample :
    (((equilibriumStep defaultPhysicsConfig 0.98 0.016
        [⟨"central", "Central Node", [50], [], ⟨0, 0, 0⟩, ⟨0, 0, 0⟩, 2, "", true, .val 1⟩,
         ⟨"node-0", "Node 1", [50], [], ⟨2, 0, 0⟩, ⟨0, 0, 0⟩, 1, "", false, .undef⟩]
        (some ⟨"central", "Central Node", [50], [], ⟨0, 0, 0⟩, ⟨0, 0, 0⟩, 2, "", true, .val 1⟩)
        [⟨"central", ⟨0, 0, 0⟩⟩, ⟨"node-0", ⟨2, 0, 0⟩⟩]
        [⟨0, 0, 0⟩, ⟨0, 0, 0⟩]).1[1]?).map Mesh.position = some ⟨1.993728, 0, 0⟩) ∧
    (⟨1.993728, 0, 0⟩ : Vec3) ≠ ⟨2, 0, 0⟩ := by
  constructor
  · have hct : compatTotal [50] [50] = 1 := by
      unfold compatTotal
      norm_num [List.range_succ]
    have hv : vsub (⟨0, 0, 0⟩ : Vec3) ⟨2, 0, 0⟩ = ⟨-2, 0, 0⟩ := by simp [vsub]
    have hforce : attractionForceTotal defaultPhysicsConfig
        ⟨"central", "Central Node", [50], [], ⟨0, 0, 0⟩, ⟨0, 0, 0⟩, 2, "", true, .val 1⟩
        ⟨"node-0", "Node 1", [50], [], ⟨2, 0, 0⟩, ⟨0, 0, 0⟩, 1, "", false, .undef⟩ 0.016 =
        ⟨-0.4, 0, 0⟩ := by
      unfold attractionForceTotal defaultPhysicsConfig
      dsimp only
      rw [hct, hv, vlen_xaxis, show |(-2 : ℝ)| = 2 by norm_num,
        max_eq_left (show (0.1 : ℝ) ≤ 2 by norm_num)]
      simp only [Vec3.mk.injEq]
      norm_num
    have hfc : (List.find? (fun n => n.id == "central")
        [(⟨"central", "Central Node", [50], [], ⟨0, 0, 0⟩, ⟨0, 0, 0⟩, 2, "", true, .val 1⟩ : Node),
         ⟨"node-0", "Node 1", [50], [], ⟨2, 0, 0⟩, ⟨0, 0, 0⟩, 1, "", false, .undef⟩]) =
        some ⟨"central", "Central Node", [50], [], ⟨0, 0, 0⟩, ⟨0, 0, 0⟩, 2, "", true, .val 1⟩ :=
      rfl
    have hfo : (List.find? (fun n => n.id == "node-0")
        [(⟨"central", "Central Node", [50], [], ⟨0, 0, 0⟩, ⟨0, 0, 0⟩, 2, "", true, .val 1⟩ : Node),
         ⟨"node-0", "Node 1", [50], [], ⟨2, 0, 0⟩, ⟨0, 0, 0⟩, 1, "", false, .undef⟩]) =
        some ⟨"node-0", "Node 1", [50], [], ⟨2, 0, 0⟩, ⟨0, 0, 0⟩, 1, "", false, .undef⟩ :=
      rfl
    simp only [equilibriumStep, idxMap, show List.range 2 = [0, 1] from rfl,
      List.foldl_cons, List.foldl_nil, List.length_cons, List.length_nil,
      List.getD_cons_zero, List.getD_cons_succ, hfc, hfo]
    simp only [show ((⟨"central", "Central Node", [50], [], ⟨0, 0, 0⟩, ⟨0, 0, 0⟩, 2, "",
      true, .val 1⟩ : Node)).isCentral = true from rfl,
      show ((⟨"node-0", "Node 1", [50], [], ⟨2, 0, 0⟩, ⟨0, 0, 0⟩, 1, "", false,
      .undef⟩ : Node)).isCentral = false from rfl,
      if_true, if_false, Bool.false_eq_true, hforce]
    simp only [applyDamping, vadd, vscale, Option.map_some', Option.some.injEq, hfc, hfo,
      Vec3.mk.injEq]
    norm_num
    rw [hfo]
    rfl
  · intro h
    rw [Vec3.mk.injEq] at h
    norm_num at h

/-- C5 (amended): the iterated force steps write the live mesh positions
directly (the per-mesh velocity array is the only scratch buffer), and the
equilibrium cache is written once, at the end of the solve, as a capture
of the final live positions: for every mesh of the finished solve, the
cache entry is the origin if its node is central, a hole if its node is
missing, and otherwise exactly the mesh's final live position. -/
theorem C5_cache_captures_live (config : PhysicsConfig) (damping dt : ℝ) (s : P0State)
    (hle : ¬ s.meshes.length > 50) (i : ℕ) (m : Mesh)
    (hm : (runEquilibriumCalculation config damping dt s).meshes[i]? = some m) :
    (runEquilibriumCalculation config damping dt s).equilibriumPositions[i]? =
      some (match s.nodes.find? (fun n => n.id == m.nodeId) with
        | none => none
        | some node => if node.isCentral then some ⟨0, 0, 0⟩ else some m.position) := by
  unfold runEquilibriumCalculation at hm ⊢
  rw [if_neg hle] at hm ⊢
  dsimp only at hm ⊢
  rw [List.getElem?_map, hm]
  rfl

/-- C5 witness: the amended cache-capture theorem applied at a concrete
one-mesh input (the central mesh, whose cache entry is the origin). -/
theorem C5_witness :
    (¬ ([⟨"central", ⟨0, 0, 0⟩⟩] : List Mesh).length > 50) ∧
    (runEquilibriumCalculation defaultPhysicsConfig 0.98 0.016
        ⟨[⟨"central", "Central Node", [50], [], ⟨0, 0, 0⟩, ⟨0, 0, 0⟩, 2, "", true, .val 1⟩],
         some ⟨"central", "Central Node", [50], [], ⟨0, 0, 0⟩, ⟨0, 0, 0⟩, 2, "", true, .val 1⟩,
         [⟨"central", ⟨0, 0, 0⟩⟩], [⟨0, 0, 0⟩], [], none, true⟩).equilibriumPositions[0]? =
      some (some ⟨0, 0, 0⟩) := by
  refine ⟨by decide, ?_⟩
  have hfix : (fun p : List Mesh × List Vec3 =>
      equilibriumStep defaultPhysicsConfig 0.98 0.016
        [⟨"central", "Central Node", [50], [], ⟨0, 0, 0⟩, ⟨0, 0, 0⟩, 2, "", true, .val 1⟩]
        (some ⟨"central", "Central Node", [50], [], ⟨0, 0, 0⟩, ⟨0, 0, 0⟩, 2, "", true, .val 1⟩)
        p.1 p.2) ([⟨"central", ⟨0, 0, 0⟩⟩], [⟨0, 0, 0⟩]) =
      ([⟨"central", ⟨0, 0, 0⟩⟩], [⟨0, 0, 0⟩]) := rfl
  have hm : (runEquilibriumCalculation defaultPhysicsConfig 0.98 0.016
      ⟨[⟨"central", "Central Node", [50], [], ⟨0, 0, 0⟩, ⟨0, 0, 0⟩, 2, "", true, .val 1⟩],
       some ⟨"central", "Central Node", [50], [], ⟨0, 0, 0⟩, ⟨0, 0, 0⟩, 2, "", true, .val 1⟩,
       [⟨"central", ⟨0, 0, 0⟩⟩], [⟨0, 0, 0⟩], [], none, true⟩).meshes[0]? =
      some ⟨"central", ⟨0, 0, 0⟩⟩ := by
    unfold runEquilibriumCalculation
    rw [if_neg (by decide)]
    dsimp only
    rw [show List.replicate (List.length [(⟨"central", ⟨0, 0, 0⟩⟩ : Mesh)]) (⟨0, 0, 0⟩ : Vec3) =
      [⟨0, 0, 0⟩] from rfl]
    rw [Function.iterate_fixed hfix]
    rfl
  have := C5_cache_captures_live defaultPhysicsConfig 0.98 0.016
    ⟨[⟨"central", "Central Node", [50], [], ⟨0, 0, 0⟩, ⟨0, 0, 0⟩, 2, "", true, .val 1⟩],
     some ⟨"central", "Central Node", [50], [], ⟨0, 0, 0⟩, ⟨0, 0, 0⟩, 2, "", true, .val 1⟩,
     [⟨"central", ⟨0, 0, 0⟩⟩], [⟨0, 0, 0⟩], [], none, true⟩
    (by decide) 0 ⟨"central", ⟨0, 0, 0⟩⟩ hm
  simpa using this

/-! ## More vector lemmas -/

/-- Subtracting the origin is the identity. -/
theorem vsub_zero_vec (p : Vec3) : vsub p ⟨0, 0, 0⟩ = p := by
  obtain ⟨x, y, z⟩ := p
  simp [vsub]

/-- Subtracting from the origin is negation. -/
theorem zero_vsub_vec (p : Vec3) : vsub ⟨0, 0, 0⟩ p = vneg p := by
  obtain ⟨x, y, z⟩ := p
  simp [vsub, vneg]

/-- Negation preserves length. -/
theorem vlen_vneg (p : Vec3) : vlen (vneg p) = vlen p := by
  obtain ⟨x, y, z⟩ := p
  unfold vlen vlenSq vneg
  norm_num

/-- Interpolating by the full remaining distance toward the origin lands
exactly at the origin. -/
theorem move_to_origin (p : Vec3) (hp : vlen p ≠ 0) :
    vadd p (vscale (vlen (vsub p ⟨0, 0, 0⟩)) (vnormalize (vsub ⟨0, 0, 0⟩ p))) =
      ⟨0, 0, 0⟩ := by
  rw [vsub_zero_vec, zero_vsub_vec]
  unfold vnormalize
  rw [vlen_vneg, if_neg hp]
  obtain ⟨x, y, z⟩ := p
  unfold vadd vscale vneg
  simp only [Vec3.mk.injEq]
  refine ⟨?_, ?_, ?_⟩ <;> field_simp <;> ring

/-! ## C3: the central node after a tick -/

/-- C3 counterexample: in the `part_000` variant with a ready equilibrium
cache, a tick moves the central mesh only `min(distance, 2·dt)` toward the
origin — starting from `(10, 0, 0)` with `dt = 0.016` it ends at
`(9.968, 0, 0)`, not at `(0, 0, 0)`. -/
theorem C3_counterexample :
    ((stepPhysicsPart0 0.016
        ⟨[⟨"central", "Central Node", [50], [], ⟨0, 0, 0⟩, ⟨0, 0, 0⟩, 2, "", true, .val 1⟩],
         some ⟨"central", "Central Node", [50], [], ⟨0, 0, 0⟩, ⟨0, 0, 0⟩, 2, "", true, .val 1⟩,
         [⟨"central", ⟨10, 0, 0⟩⟩], [], [some ⟨0, 0, 0⟩], none,
         false⟩).meshes[0]?).map Mesh.position = some ⟨9.968, 0, 0⟩ ∧
    (⟨9.968, 0, 0⟩ : Vec3) ≠ ⟨0, 0, 0⟩ := by
  constructor
  · have hva : vsub (⟨10, 0, 0⟩ : Vec3) ⟨0, 0, 0⟩ = ⟨10, 0, 0⟩ := by simp [vsub]
    have hvb : vsub (⟨0, 0, 0⟩ : Vec3) ⟨10, 0, 0⟩ = ⟨-10, 0, 0⟩ := by simp [vsub]
    have hnorm : vnormalize (⟨-10, 0, 0⟩ : Vec3) = ⟨-1, 0, 0⟩ := by
      unfold vnormalize
      rw [vlen_xaxis, show |(-10 : ℝ)| = 10 by norm_num, if_neg (by norm_num)]
      unfold vscale
      simp only [Vec3.mk.injEq]
      norm_num
    simp only [stepPhysicsPart0, idxMap, List.length_cons, List.length_nil,
      List.getElem?_cons_zero]
    norm_num
    rw [hva, hvb, vlen_xaxis, show |(10 : ℝ)| = 10 by norm_num, hnorm]
    rw [if_neg (show ¬ (none : Option ℕ) = some 0 by simp)]
    rw [if_pos (show (1 : ℝ) / 10 < 10 by norm_num)]
    rw [min_eq_right (show (4 / 125 : ℝ) ≤ 10 by norm_num)]
    simp only [vadd, vscale, Vec3.mk.injEq]
    norm_num
  · intro h
    rw [Vec3.mk.injEq] at h
    norm_num at h

/-- C3 (amended): after a tick, the central node sits exactly at the
origin only under conditions.  In the spline-view variant, a tick with a
nonempty cache pins every central mesh to the origin.  In the `part_000`
variant nothing pins the central mesh: it is interpolated toward its
cached target like any other mesh, so it lands exactly on the origin
during a cache-ready tick only when its cached target is the origin and
its current distance lies in `(0.1, 2·dt]`; cache-empty ticks leave every
position untouched in both variants. -/
theorem C3_central_pin_amended :
    (∀ (dt : ℝ) (s : SplineState) (central : Node) (i : ℕ) (m : Mesh) (node : Node),
        s.centralNode = some central →
        s.meshes.length ≠ 0 →
        s.equilibriumPositions.length ≠ 0 →
        s.meshes[i]? = some m →
        s.nodes.find? (fun n => n.id == m.nodeId) = some node →
        node.isCentral = true →
        ((stepPhysicsSpline dt s).meshes[i]?).map Mesh.position = some ⟨0, 0, 0⟩) ∧
    (∀ (dt : ℝ) (s : P0State) (c : Node) (i : ℕ) (m : Mesh),
        s.centralNode = some c →
        s.meshes.length ≠ 0 →
        ¬ (s.equilibriumPositions.length = 0 ∨ s.isCalculatingEquilibrium = true) →
        s.draggedIdx ≠ some i →
        s.meshes[i]? = some m →
        s.equilibriumPositions[i]? = some (some ⟨0, 0, 0⟩) →
        0.1 < vlen m.position →
        vlen m.position ≤ 2.0 * dt →
        ((stepPhysicsPart0 dt s).meshes[i]?).map Mesh.position = some ⟨0, 0, 0⟩) := by
  constructor
  · intro dt s central i m node hcen hm0 hq0 hm hfind hcentral
    simp only [stepPhysicsSpline, hcen]
    rw [if_neg hm0, if_neg hq0]
    simp only [idxMap_getElem?, Nat.zero_add, hm, Option.map_some', hfind, hcentral]
    rfl
  · intro dt s c i m hcen hm0 hguard hdrag hm hcache hgt hle
    simp only [stepPhysicsPart0, hcen]
    rw [if_neg hm0, if_neg hguard]
    simp only [idxMap_getElem?, Nat.zero_add, hm, Option.map_some', hcache,
      if_neg hdrag]
    have hdist : vlen (vsub m.position ⟨0, 0, 0⟩) = vlen m.position := by
      rw [vsub_zero_vec]
    rw [hdist, if_pos hgt, min_eq_left hle]
    rw [show vscale (vlen m.position) (vnormalize (vsub ⟨0, 0, 0⟩ m.position)) =
      vscale (vlen (vsub m.position ⟨0, 0, 0⟩)) (vnormalize (vsub ⟨0, 0, 0⟩ m.position)) by
        rw [hdist]]
    rw [move_to_origin m.position (by linarith)]

/-- C3 witness: both amended parts applied at concrete inputs — a central
mesh at `(5, 0, 0)` snapped by the spline-view tick, and a central mesh at
distance 1 with `dt = 1` brought exactly to the origin by the `part_000`
tick. -/
theorem C3_witness :
    (((stepPhysicsSpline 0.016
        ⟨[⟨"central", "Central Node", [50], [], ⟨0, 0, 0⟩, ⟨0, 0, 0⟩, 2, "", true, .val 1⟩],
         some ⟨"central", "Central Node", [50], [], ⟨0, 0, 0⟩, ⟨0, 0, 0⟩, 2, "", true, .val 1⟩,
         [⟨"central", ⟨5, 0, 0⟩⟩], [⟨1, 1, 1⟩], none⟩).meshes[0]?).map Mesh.position =
      some ⟨0, 0, 0⟩) ∧
    (((stepPhysicsPart0 1
        ⟨[⟨"central", "Central Node", [50], [], ⟨0, 0, 0⟩, ⟨0, 0, 0⟩, 2, "", true, .val 1⟩],
         some ⟨"central", "Central Node", [50], [], ⟨0, 0, 0⟩, ⟨0, 0, 0⟩, 2, "", true, .val 1⟩,
         [⟨"central", ⟨1, 0, 0⟩⟩], [], [some ⟨0, 0, 0⟩], none,
         false⟩).meshes[0]?).map Mesh.position = some ⟨0, 0, 0⟩) := by
  have hlen1 : vlen (⟨1, 0, 0⟩ : Vec3) = 1 := by
    rw [vlen_xaxis]; norm_num
  exact ⟨C3_central_pin_amended.1 0.016 _ _ 0 ⟨"central", ⟨5, 0, 0⟩⟩ _ rfl
      (by norm_num) (by norm_num) rfl rfl rfl,
    C3_central_pin_amended.2 1 _
      ⟨"central", "Central Node", [50], [], ⟨0, 0, 0⟩, ⟨0, 0, 0⟩, 2, "", true, .val 1⟩
      0 ⟨"central", ⟨1, 0, 0⟩⟩ rfl (by norm_num) (by norm_num) (by simp) rfl rfl
      (by rw [show (⟨"central", ⟨1, 0, 0⟩⟩ : Mesh).position = ⟨1, 0, 0⟩ from rfl, hlen1]
          norm_num)
      (by rw [show (⟨"central", ⟨1, 0, 0⟩⟩ : Mesh).position = ⟨1, 0, 0⟩ from rfl, hlen1]
          norm_num)⟩

/-! ## C6 helpers: ClusterPlacement reads only projected node data -/

/-- `find?` by id agrees on projection-equal node lists. -/
theorem find?_proj (mid : String) :
    ∀ (l1 l2 : List Node), l1.map proj = l2.map proj →
    (l1.find? (fun n => n.id == mid)).map proj =
      (l2.find? (fun n => n.id == mid)).map proj := by
  intro l1
  induction l1 with
  | nil =>
      intro l2 h
      cases l2 with
      | nil => rfl
      | cons b l' => simp at h
  | cons a l ih =>
      intro l2 h
      cases l2 with
      | nil => simp at h
      | cons b l' =>
          simp only [List.map_cons, List.cons.injEq] at h
          obtain ⟨hab, hl⟩ := h
          have hid : a.id = b.id := congrArg (fun x => x.1) hab
          by_cases hp : (a.id == mid) = true
          · have e1 : List.find? (fun n => n.id == mid) (a :: l) = some a :=
              List.find?_cons_of_pos _ hp
            have e2 : List.find? (fun n => n.id == mid) (b :: l') = some b :=
              List.find?_cons_of_pos _ (by rw [← hid]; exact hp)
            rw [e1, e2]
            simp [hab]
          · have e1 : List.find? (fun n => n.id == mid) (a :: l) =
                List.find? (fun n => n.id == mid) l :=
              List.find?_cons_of_neg _ hp
            have e2 : List.find? (fun n => n.id == mid) (b :: l') =
                List.find? (fun n => n.id == mid) l' :=
              List.find?_cons_of_neg _ (by rw [← hid]; exact hp)
            rw [e1, e2]
            exact ih l' hl

/-- The group-key membership test agrees on projection-equal group maps. -/
theorem insertGrouped_keys_any (gs1 gs2 : List (List ℚ × List Node)) (c : List ℚ)
    (h : gs1.map gproj = gs2.map gproj) :
    gs1.any (fun g => g.1 == c) = gs2.any (fun g => g.1 == c) := by
  have h1 : gs1.map (fun g => g.1) = gs2.map (fun g => g.1) := by
    have h2 := congrArg (List.map Prod.fst) h
    simpa [List.map_map, Function.comp, gproj] using h2
  clear h
  induction gs1 generalizing gs2 with
  | nil =>
      cases gs2 with
      | nil => rfl
      | cons g2 gs' => simp at h1
  | cons g1 gs ih =>
      cases gs2 with
      | nil => simp at h1
      | cons g2 gs' =>
          simp only [List.map_cons, List.cons.injEq] at h1
          obtain ⟨hk, hrest⟩ := h1
          simp only [List.any_cons, hk, ih gs' hrest]

/-- Inserting projection-equal nodes into projection-equal group maps
yields projection-equal group maps. -/
theorem insertGrouped_proj (a b : Node) (hab : proj a = proj b) :
    ∀ (gs1 gs2 : List (List ℚ × List Node)), gs1.map gproj = gs2.map gproj →
    (insertGrouped gs1 a).map gproj = (insertGrouped gs2 b).map gproj := by
  have hattrs : a.attributes = b.attributes := congrArg (fun p => p.2.1) hab
  intro gs1 gs2 h
  unfold insertGrouped
  rw [hattrs, insertGrouped_keys_any gs1 gs2 b.attributes h]
  by_cases hany : gs2.any (fun g => g.1 == b.attributes) = true
  · rw [if_pos hany, if_pos hany]
    clear hany
    induction gs1 generalizing gs2 with
    | nil =>
        cases gs2 with
        | nil => rfl
        | cons g2 gs' => simp at h
    | cons g1 gs ih =>
        cases gs2 with
        | nil => simp at h
        | cons g2 gs' =>
            simp only [List.map_cons, List.cons.injEq] at h
            obtain ⟨hg, hgs⟩ := h
            have hg' := hg
            simp only [gproj, Prod.mk.injEq] at hg'
            obtain ⟨hkey, hmem⟩ := hg'
            simp only [List.map_cons]
            refine congrArg₂ List.cons ?_ (ih gs' hgs)
            by_cases hk : (g1.1 == b.attributes) = true
            · rw [if_pos hk, if_pos (by rw [← hkey]; exact hk)]
              unfold gproj
              simp only [List.map_append, List.map_cons, List.map_nil]
              rw [hkey, hmem, hab]
            · rw [if_neg hk, if_neg (by rw [← hkey]; exact hk)]
              exact hg
  · rw [if_neg hany, if_neg hany]
    rw [List.map_append, List.map_append, h]
    unfold gproj
    simp [hab]

/-- The group-building fold sends projection-equal node lists and
projection-equal accumulators to projection-equal group maps. -/
theorem buildGroupsAux_proj (meshIds : List String) (n1 n2 : List Node)
    (hn : n1.map proj = n2.map proj) :
    ∀ (gs1 gs2 : List (List ℚ × List Node)), gs1.map gproj = gs2.map gproj →
    (meshIds.foldl (fun gs mid =>
      match n1.find? (fun n => n.id == mid) with
      | none => gs
      | some node => if node.isCentral then gs else insertGrouped gs node) gs1).map gproj =
    (meshIds.foldl (fun gs mid =>
      match n2.find? (fun n => n.id == mid) with
      | none => gs
      | some node => if node.isCentral then gs else insertGrouped gs node) gs2).map gproj := by
  induction meshIds with
  | nil => intro gs1 gs2 hgs; exact hgs
  | cons mid rest ih =>
      intro gs1 gs2 hgs
      simp only [List.foldl_cons]
      apply ih
      have hf := find?_proj mid n1 n2 hn
      cases o1 : n1.find? (fun n => n.id == mid) with
      | none =>
          cases o2 : n2.find? (fun n => n.id == mid) with
          | none => exact hgs
          | some b => rw [o1, o2] at hf; simp at hf
      | some a =>
          cases o2 : n2.find? (fun n => n.id == mid) with
          | none => rw [o1, o2] at hf; simp at hf
          | some b =>
              rw [o1, o2] at hf
              simp only [Option.map_some', Option.some.injEq] at hf
              have hf' := hf
              simp only [proj, Prod.mk.injEq] at hf'
              obtain ⟨hid2, hattrs2, hcent⟩ := hf'
              show (if a.isCentral = true then gs1 else insertGrouped gs1 a).map gproj =
                  (if b.isCentral = true then gs2 else insertGrouped gs2 b).map gproj
              rw [hcent]
              by_cases hc : b.isCentral = true
              · rw [if_pos hc, if_pos hc]; exact hgs
              · rw [if_neg hc, if_neg hc]
                exact insertGrouped_proj a b hf gs1 gs2 hgs

/-- The member-placement fold depends on a member only through its index
and its id. -/
theorem memberFold_proj (meshIds : List String) (F : ℕ → Vec3) :
    ∀ (l1 l2 : List Node), l1.map proj = l2.map proj →
    ∀ (k : ℕ) (out : List Vec3),
    (List.enumFrom k l1).foldl (fun out2 p =>
      match meshIds.findIdx? (fun mid => mid == p.2.id) with
      | none => out2
      | some meshIndex => out2.set meshIndex (F p.1)) out =
    (List.enumFrom k l2).foldl (fun out2 p =>
      match meshIds.findIdx? (fun mid => mid == p.2.id) with
      | none => out2
      | some meshIndex => out2.set meshIndex (F p.1)) out := by
  intro l1
  induction l1 with
  | nil =>
      intro l2 h k out
      cases l2 with
      | nil => rfl
      | cons b l' => simp at h
  | cons a l ih =>
      intro l2 h k out
      cases l2 with
      | nil => simp at h
      | cons b l' =>
          simp only [List.map_cons, List.cons.injEq] at h
          obtain ⟨hab, hl⟩ := h
          have hab' := hab
          simp only [proj, Prod.mk.injEq] at hab'
          obtain ⟨hid, hattrs, hcent⟩ := hab'
          simp only [List.enumFrom, List.foldl_cons]
          rw [hid]
          exact ih l' hl (k + 1) _

/-- The whole placement fold agrees on projection-equal group maps. -/
theorem phase2_proj (meshIds : List String) (cAttrs : List ℚ) (keys : List (List ℚ)) :
    ∀ (gs1 gs2 : List (List ℚ × List Node)), gs1.map gproj = gs2.map gproj →
    ∀ (out : List Vec3),
    gs1.foldl (fun out g =>
      g.2.enum.foldl (fun out2 p =>
        match meshIds.findIdx? (fun mid => mid == p.2.id) with
        | none => out2
        | some meshIndex =>
            out2.set meshIndex
              ((declusterStep cAttrs keys g.1)^[10]
                (memberBaseTarget (groupBasePosition cAttrs g.1) g.2.length p.1))) out) out =
    gs2.foldl (fun out g =>
      g.2.enum.foldl (fun out2 p =>
        match meshIds.findIdx? (fun mid => mid == p.2.id) with
        | none => out2
        | some meshIndex =>
            out2.set meshIndex
              ((declusterStep cAttrs keys g.1)^[10]
                (memberBaseTarget (groupBasePosition cAttrs g.1) g.2.length p.1))) out) out := by
  intro gs1
  induction gs1 with
  | nil =>
      intro gs2 h out
      cases gs2 with
      | nil => rfl
      | cons g2 gs' => simp at h
  | cons g1 gs ih =>
      intro gs2 h out
      cases gs2 with
      | nil => simp at h
      | cons g2 gs' =>
          simp only [List.map_cons, List.cons.injEq] at h
          obtain ⟨hg, hgs⟩ := h
          have hg' := hg
          simp only [gproj, Prod.mk.injEq] at hg'
          obtain ⟨hkey, hmem⟩ := hg'
          have hlen : g1.2.length = g2.2.length := by
            rw [← List.length_map g1.2 proj, hmem, List.length_map]
          simp only [List.foldl_cons, List.enum]
          rw [hkey, hlen,
            memberFold_proj meshIds
              (fun k => (declusterStep cAttrs keys g2.1)^[10]
                (memberBaseTarget (groupBasePosition cAttrs g2.1) g2.2.length k))
              g1.2 g2.2 hmem 0 out]
          exact ih gs' hgs _

/-! ## C6: ClusterPlacement is deterministic -/

/-- C6: ClusterPlacement is a pure function of the mesh-id order, each
node's `(id, attributes, isCentral)` projection and the central node's
attribute vector — two runs over node-sets that agree on those (however
much their positions, velocities, names, colors, radii or cached
compatibilities differ) produce identical output positions for every
node.  In particular, running it twice on the same inputs gives identical
results. -/
theorem C6_placement_deterministic (meshIds : List String) (nodes1 nodes2 : List Node)
    (c1 c2 : Node) (hn : nodes1.map proj = nodes2.map proj)
    (hc : c1.attributes = c2.attributes) :
    calculateEquilibriumPositions meshIds nodes1 c1 =
      calculateEquilibriumPositions meshIds nodes2 c2 := by
  have hg : (buildGroups meshIds nodes1).map gproj =
      (buildGroups meshIds nodes2).map gproj := by
    unfold buildGroups
    exact buildGroupsAux_proj meshIds nodes1 nodes2 hn [] [] rfl
  have hkeys : (buildGroups meshIds nodes1).map Prod.fst =
      (buildGroups meshIds nodes2).map Prod.fst := by
    have h2 := congrArg (List.map Prod.fst) hg
    simpa [List.map_map, Function.comp, gproj] using h2
  simp only [calculateEquilibriumPositions]
  rw [hc, hkeys]
  exact phase2_proj meshIds c2.attributes ((buildGroups meshIds nodes2).map Prod.fst)
    (buildGroups meshIds nodes1) (buildGroups meshIds nodes2) hg _

/-- C6 witness: the determinism theorem applied to two concrete two-node
sets that agree on ids, attributes and central flags but have different
positions, velocities, names, colors and cached compatibilities. -/
theorem C6_witness :
    ([⟨"central", "Central Node", [50], [], ⟨0, 0, 0⟩, ⟨0, 0, 0⟩, 2, "", true, .val 1⟩,
      ⟨"a", "x", [45], [], ⟨1, 2, 3⟩, ⟨4, 5, 6⟩, 1, "red", false, .undef⟩] :
        List Node).map proj =
      ([⟨"central", "C", [50], [], ⟨8, 8, 8⟩, ⟨7, 7, 7⟩, 5, "w", true, .undef⟩,
        ⟨"a", "y", [45], [], ⟨9, 9, 9⟩, ⟨0, 0, 0⟩, 7, "blue", false, .val 0⟩] :
        List Node).map proj ∧
    calculateEquilibriumPositions ["central", "a"]
      [⟨"central", "Central Node", [50], [], ⟨0, 0, 0⟩, ⟨0, 0, 0⟩, 2, "", true, .val 1⟩,
       ⟨"a", "x", [45], [], ⟨1, 2, 3⟩, ⟨4, 5, 6⟩, 1, "red", false, .undef⟩]
      ⟨"central", "Central Node", [50], [], ⟨0, 0, 0⟩, ⟨0, 0, 0⟩, 2, "", true, .val 1⟩ =
    calculateEquilibriumPositions ["central", "a"]
      [⟨"central", "C", [50], [], ⟨8, 8, 8⟩, ⟨7, 7, 7⟩, 5, "w", true, .undef⟩,
       ⟨"a", "y", [45], [], ⟨9, 9, 9⟩, ⟨0, 0, 0⟩, 7, "blue", false, .val 0⟩]
      ⟨"central", "C", [50], [], ⟨8, 8, 8⟩, ⟨7, 7, 7⟩, 5, "w", true, .undef⟩ :=
  ⟨rfl, C6_placement_deterministic ["central", "a"] _ _ _ _ rfl rfl⟩

/-! ## C7 helpers: the clamp, the hash values and the degenerate member -/

/-- `normalize` leaves the zero vector unchanged. -/
theorem vnormalize_zero_vec : vnormalize ⟨0, 0, 0⟩ = ⟨0, 0, 0⟩ := by
  unfold vnormalize
  rw [if_pos vlen_zero]
  simp [vscale]

/-- A nonzero vector normalizes to a unit vector. -/
theorem vlen_vnormalize {v : Vec3} (h : vlen v ≠ 0) : vlen (vnormalize v) = 1 := by
  unfold vnormalize
  rw [if_neg h, vlen_scale,
    abs_of_nonneg (div_nonneg zero_le_one (vlen_nonneg v)),
    one_div_mul_cancel h]

/-- One declustering pass ends in the clamp, so its output is either the
zero vector (the clamp's degenerate fixed point) or has distance from the
origin in `[8, 120]`. -/
theorem declusterStep_bounds (cAttrs : List ℚ) (keys : List (List ℚ)) (key : List ℚ)
    (t : Vec3) :
    declusterStep cAttrs keys key t = ⟨0, 0, 0⟩ ∨
      (8 ≤ vlen (declusterStep cAttrs keys key t) ∧
        vlen (declusterStep cAttrs keys key t) ≤ 120) := by
  have main : ∀ w : Vec3,
      (if vlen w > 120 then vscale 120 (vnormalize w)
       else if vlen w < 8 then vscale 8 (vnormalize w) else w) = ⟨0, 0, 0⟩ ∨
      (8 ≤ vlen (if vlen w > 120 then vscale 120 (vnormalize w)
         else if vlen w < 8 then vscale 8 (vnormalize w) else w) ∧
       vlen (if vlen w > 120 then vscale 120 (vnormalize w)
         else if vlen w < 8 then vscale 8 (vnormalize w) else w) ≤ 120) := by
    intro w
    by_cases h1 : vlen w > 120
    · right
      rw [if_pos h1, vlen_scale, vlen_vnormalize (ne_of_gt (by linarith))]
      norm_num
    · rw [if_neg h1]
      by_cases h2 : vlen w < 8
      · rw [if_pos h2]
        by_cases hz : vlen w = 0
        · left
          rw [eq_zero_of_vlen_eq_zero hz, vnormalize_zero_vec]
          simp [vscale]
        · right
          rw [vlen_scale, vlen_vnormalize hz]
          norm_num
      · right
        rw [if_neg h2]
        exact ⟨not_lt.mp h2, not_lt.mp h1⟩
  exact main _

/-- Every value produced by the per-member index-lookup-and-set step is an
old entry or the written value. -/
theorem mem_matchSet {o : Option ℕ} {out : List Vec3} {x v : Vec3}
    (hv : v ∈ (match o with | none => out | some i => out.set i x)) :
    v ∈ out ∨ v = x := by
  cases o with
  | none => exact Or.inl hv
  | some i => exact List.mem_or_eq_of_mem_set hv

/-- The inner member fold preserves any property that holds of every
initial entry and of every written value. -/
theorem inner_fold_mem (Q : Vec3 → Prop) (meshIds : List String)
    (f : ℕ → Vec3) (hf : ∀ k, Q (f k)) :
    ∀ (l : List (ℕ × Node)) (out : List Vec3), (∀ v ∈ out, Q v) →
    ∀ v ∈ l.foldl (fun out2 p =>
      match meshIds.findIdx? (fun mid => mid == p.2.id) with
      | none => out2
      | some meshIndex => out2.set meshIndex (f p.1)) out, Q v := by
  intro l
  induction l with
  | nil => intro out h v hv; exact h v hv
  | cons p rest ih =>
      intro out h v hv
      simp only [List.foldl_cons] at hv
      refine ih _ ?_ v hv
      intro w hw
      rcases mem_matchSet hw with h1 | h2
      · exact h w h1
      · rw [h2]; exact hf p.1

/-- The outer group fold preserves any property that holds of every
initial entry and of every declustered member target. -/
theorem outer_fold_mem (Q : Vec3 → Prop) (meshIds : List String) (cAttrs : List ℚ)
    (keys : List (List ℚ))
    (hQ : ∀ (key : List ℚ) (count k : ℕ),
      Q ((declusterStep cAttrs keys key)^[10]
        (memberBaseTarget (groupBasePosition cAttrs key) count k))) :
    ∀ (gs : List (List ℚ × List Node)) (out : List Vec3), (∀ v ∈ out, Q v) →
    ∀ v ∈ gs.foldl (fun out g =>
      g.2.enum.foldl (fun out2 p =>
        match meshIds.findIdx? (fun mid => mid == p.2.id) with
        | none => out2
        | some meshIndex =>
            out2.set meshIndex
              ((declusterStep cAttrs keys g.1)^[10]
                (memberBaseTarget (groupBasePosition cAttrs g.1) g.2.length p.1))) out) out,
    Q v := by
  intro gs
  induction gs with
  | nil => intro out h v hv; exact h v hv
  | cons g rest ih =>
      intro out h v hv
      simp only [List.foldl_cons] at hv
      exact ih _
        (inner_fold_mem Q meshIds
          (fun k => (declusterStep cAttrs keys g.1)^[10]
            (memberBaseTarget (groupBasePosition cAttrs g.1) g.2.length k))
          (fun k => hQ g.1 g.2.length k) g.2.enum out h) v hv

/-- `ToInt32` of the rational 0 is 0. -/
theorem toInt32_zero : toInt32 0 = 0 := by
  simp only [toInt32]
  rw [if_pos (le_refl (0 : ℚ))]
  rw [show ⌊(0 : ℚ)⌋ = 0 by norm_num]
  rw [if_pos (show ((0 : ℤ) % 4294967296 + 4294967296) % 4294967296 < 2147483648 by decide)]
  decide

/-- `ToInt32` of the rational 45 is 45. -/
theorem toInt32_45 : toInt32 45 = 45 := by
  simp only [toInt32]
  rw [if_pos (show (0 : ℚ) ≤ 45 by norm_num)]
  rw [show ⌊(45 : ℚ)⌋ = 45 by norm_num]
  rw [if_pos (show ((45 : ℤ) % 4294967296 + 4294967296) % 4294967296 < 2147483648 by decide)]
  decide

/-- The 31-hash of the attribute vector `[45]` is 45. -/
theorem hashAttr45 : hashAttributeValues [45] = 45 := by
  unfold hashAttributeValues
  rw [show List.foldl hashStep 0 [45] = hashStep 0 45 from rfl]
  unfold hashStep
  rw [show (((0 : ℤ) * 32 : ℤ) : ℚ) = (0 : ℚ) by norm_num]
  rw [toInt32_zero]
  rw [show (((0 - 0 : ℤ)) : ℚ) + 45 = (45 : ℚ) by norm_num]
  rw [toInt32_45]
  decide

/-- The compatibility of central preferences `[50]` with attributes `[45]`
is `19/20`. -/
theorem compat5045 : compatTotal [50] [45] = 19 / 20 := by
  simp only [compatTotal, List.length_cons, List.length_nil, min_self]
  rw [show List.range 1 = [0] from rfl]
  simp only [List.foldl_cons, List.foldl_nil, List.getD_cons_zero]
  rw [show |(50 : ℚ) - 45| = 5 by norm_num]
  rw [max_eq_right (show (0 : ℚ) ≤ 1 - (0 + 5) / ((1 : ℕ) * 100) by norm_num)]
  norm_num

/-- The base position of the `[45]` group under central preferences `[50]`:
compatibility `19/20` gives base distance 18, the 31-hash 45 gives polar
angle 45° = π/4 and height `(45 - 50) * 0.4 = -2`. -/
theorem groupBase_ex :
    groupBasePosition [50] [45] =
      ⟨Real.cos (Real.pi / 4) * 18, -2, Real.sin (Real.pi / 4) * 18⟩ := by
  have hrev : ([45] : List ℚ).reverse = [45] := rfl
  simp only [groupBasePosition, hrev, hashAttr45, compat5045]
  have hbd : (15 : ℝ) + (1 - ((19 / 20 : ℚ) : ℝ)) * 60 = 18 := by
    push_cast
    norm_num
  have hang : (((45 % 360 : ℕ)) : ℝ) * (Real.pi / 180) = Real.pi / 4 := by
    rw [show (45 % 360 : ℕ) = 45 from rfl]
    push_cast
    ring
  have hht : ((((45 % 100 : ℕ)) : ℝ) - 50) * 0.4 = -2 := by
    rw [show (45 % 100 : ℕ) = 45 from rfl]
    push_cast
    norm_num
  rw [hbd, hang, hht]

/-- With only its own key in the key list, a declustering pass receives no
repulsion, so any target already at distance in `[8, 120]` is a fixed
point of the pass (the clamp leaves it unchanged). -/
theorem declusterStep_own_fixed (cAttrs : List ℚ) (key : List ℚ) (t : Vec3)
    (h8 : 8 ≤ vlen t) (h120 : vlen t ≤ 120) :
    declusterStep cAttrs [key] key t = t := by
  simp only [declusterStep, List.foldl_cons, List.foldl_nil, beq_self_eq_true, if_true]
  rw [if_neg (show ¬ (false = true) by decide)]
  rw [if_neg (not_lt.mpr h120)]
  rw [if_neg (not_lt.mpr h8)]

/-- The `[45]` group's base position has distance `√328` from the origin
(`18² + (-2)² = 328`). -/
theorem vlen_base_ex :
    vlen ⟨Real.cos (Real.pi / 4) * 18, -2, Real.sin (Real.pi / 4) * 18⟩ =
      Real.sqrt 328 := by
  show Real.sqrt (Real.cos (Real.pi / 4) * 18 * (Real.cos (Real.pi / 4) * 18) +
    (-2 : ℝ) * (-2) +
    Real.sin (Real.pi / 4) * 18 * (Real.sin (Real.pi / 4) * 18)) = Real.sqrt 328
  congr 1
  linear_combination 324 * Real.sin_sq_add_cos_sq (Real.pi / 4)

/-- `√328` lies in `[8, 120]` (and is positive). -/
theorem sqrt328_bounds : 8 ≤ Real.sqrt 328 ∧ Real.sqrt 328 ≤ 120 := by
  constructor
  · rw [show (8 : ℝ) = Real.sqrt 64 by
      rw [show (64 : ℝ) = 8 ^ 2 by norm_num, Real.sqrt_sq (by norm_num : (0 : ℝ) ≤ 8)]]
    exact Real.sqrt_le_sqrt (by norm_num)
  · rw [show (120 : ℝ) = Real.sqrt 14400 by
      rw [show (14400 : ℝ) = 120 ^ 2 by norm_num,
        Real.sqrt_sq (by norm_num : (0 : ℝ) ≤ 120)]]
    exact Real.sqrt_le_sqrt (by norm_num)

/-- The concrete two-mesh placement run: the central mesh keeps the origin
entry, and the single outer node — a singleton group — gets its tenfold
declustered base target. -/
theorem calcEq_pair :
    calculateEquilibriumPositions ["central", "n0"] [exCentral, exOuter 0] exCentral =
      [⟨0, 0, 0⟩, (declusterStep [50] [[45]] [45])^[10]
        (memberBaseTarget (groupBasePosition [50] [45]) 1 0)] := rfl

/-! ## C7: output distances after the clamp -/

/-- C7: every position ClusterPlacement produces that is not the exact
zero vector has distance from the origin within `[8, 120]` — the final
clamp scales any nonzero out-of-range target back to the boundary.  The
zero outputs are the untouched initial entries of central and unmatched
meshes (positions not produced for a non-central node) and, in this exact
real-arithmetic embedding only, a member target that cancels to the zero
vector, which `normalize`'s `length || 1` guard leaves in place; the
rounding of the program's double arithmetic perturbs such a target off
zero, whereupon the clamp returns it to distance exactly 8. -/
theorem C7_clamp_bounds (meshIds : List String) (nodes : List Node) (central : Node) :
    ∀ v ∈ calculateEquilibriumPositions meshIds nodes central,
      v ≠ ⟨0, 0, 0⟩ → 8 ≤ vlen v ∧ vlen v ≤ 120 := by
  intro v hv hne
  have h0 : ∀ w ∈ meshIds.map (fun _ => (⟨0, 0, 0⟩ : Vec3)),
      w = ⟨0, 0, 0⟩ ∨ (8 ≤ vlen w ∧ vlen w ≤ 120) := by
    intro w hw
    rcases List.mem_map.mp hw with ⟨a, -, rfl⟩
    exact Or.inl rfl
  refine Or.resolve_left
    (outer_fold_mem (fun w => w = ⟨0, 0, 0⟩ ∨ (8 ≤ vlen w ∧ vlen w ≤ 120))
      meshIds central.attributes ((buildGroups meshIds nodes).map Prod.fst) ?_
      (buildGroups meshIds nodes) _ h0 v ?_) hne
  · intro key count k
    rw [show (10 : ℕ) = 9 + 1 from rfl, Function.iterate_succ_apply']
    exact declusterStep_bounds _ _ _ _
  · exact hv

/-- C7 witness: the bounds theorem applied to the two-mesh run with one
outer node of attributes `[45]` — its produced position is the group base
position, at distance `√328 ≈ 18.1` from the origin, nonzero, and the
theorem places that distance in `[8, 120]`. -/
theorem C7_witness :
    8 ≤ vlen ⟨Real.cos (Real.pi / 4) * 18, -2, Real.sin (Real.pi / 4) * 18⟩ ∧
      vlen ⟨Real.cos (Real.pi / 4) * 18, -2, Real.sin (Real.pi / 4) * 18⟩ ≤ 120 := by
  have hfix : (declusterStep [50] [[45]] [45])^[10]
      (memberBaseTarget (groupBasePosition [50] [45]) 1 0) =
      ⟨Real.cos (Real.pi / 4) * 18, -2, Real.sin (Real.pi / 4) * 18⟩ := by
    rw [show memberBaseTarget (groupBasePosition [50] [45]) 1 0 =
      groupBasePosition [50] [45] from rfl, groupBase_ex]
    exact Function.iterate_fixed
      (declusterStep_own_fixed [50] [45] _
        (by rw [vlen_base_ex]; exact sqrt328_bounds.1)
        (by rw [vlen_base_ex]; exact sqrt328_bounds.2)) 10
  have hmem : (⟨Real.cos (Real.pi / 4) * 18, -2, Real.sin (Real.pi / 4) * 18⟩ : Vec3) ∈
      calculateEquilibriumPositions ["central", "n0"] [exCentral, exOuter 0] exCentral := by
    rw [calcEq_pair, hfix]
    exact List.mem_cons_of_mem _ (List.mem_singleton.mpr rfl)
  have hne : (⟨Real.cos (Real.pi / 4) * 18, -2, Real.sin (Real.pi / 4) * 18⟩ : Vec3) ≠
      ⟨0, 0, 0⟩ := by
    intro h
    have hlen := congrArg vlen h
    rw [vlen_base_ex, vlen_zero] at hlen
    have h328 : (0 : ℝ) < Real.sqrt 328 := Real.sqrt_pos.mpr (by norm_num)
    linarith
  exact C7_clamp_bounds ["central", "n0"] [exCentral, exOuter 0] exCentral _ hmem hne

end GalaxyTraits
